import Mathlib

/-!
Verification of the 16S pipeline (`16S_pipeline.py`) against its design
specification.

The development has two layers.

* A concrete layer translating the repository source: the external
  process wrapper `run_cmd` (here `runCmd`, since `run_cmd` is not a legal
  Lean name in this development), the configuration objects
  (`Out_Prefix` / `Output_Dirs` / `Samples` and the per-task luigi
  parameters, gathered in an explicit `Config` record), and the
  per-task `output` and `run` procedures.  Stateful Python code is
  embedded by explicit state passing over a `RunState`
  (filesystem, log, list of invoked external commands); the outcomes of
  external child processes are supplied by an oracle `World` mapping each
  argument vector to a `ProcResult`.

* A scheduler layer.  The dependency resolver is luigi library code that
  is not part of the repository, so it is modelled from the spec
  (sections 4.2-4.3): depth-first memoised resolution with a visiting set
  for cycle detection, a completeness check before `run`, and a re-check
  after `run`.  Definitions modelled from the spec carry a doc comment
  saying so.
-/

/-! ## Basic string and filesystem model -/

/-- POSIX two-argument `os.path.join` as used throughout the source:
if `b` is absolute return `b`; if `a` is empty or ends in a separator
return `a ++ b`; otherwise insert a separator. -/
def pathJoin (a b : String) : String :=
  if b.startsWith "/" then b
  else if a = "" then a ++ b
  else if a.endsWith "/" then a ++ b
  else a ++ "/" ++ b

/-- Drop the longest suffix of `l` satisfying `q`. -/
def dropWhileEnd (l : List Char) (q : Char → Bool) : List Char :=
  (l.reverse.dropWhile q).reverse

/-- `os.path.dirname`: everything before the last path separator, with
trailing separators stripped unless the result is only separators. -/
def dirname (p : String) : String :=
  let head := dropWhileEnd p.toList (fun ch => ch != '/')
  if head.all (fun ch => ch = '/') then String.mk head
  else String.mk (dropWhileEnd head (fun ch => ch = '/'))

/-- `listStarts pat l`: `pat` is an initial segment of `l`. -/
def listStarts : List Char → List Char → Bool
  | [], _ => true
  | _ :: _, [] => false
  | p :: ps, c :: cs => (p == c) && listStarts ps cs

/-- `listSub pat l`: `pat` occurs contiguously somewhere in `l`. -/
def listSub (pat : List Char) : List Char → Bool
  | [] => pat.isEmpty
  | c :: rest => listStarts pat (c :: rest) || listSub pat rest

/-- `strContains s pat` decides whether `pat` occurs as a substring of
`s`. -/
def strContains (s pat : String) : Bool :=
  listSub pat.toList s.toList

/-- Metadata and content of one file in the modelled filesystem. -/
structure FileInfo where
  size : Nat
  readable : Bool
  content : String
deriving Repr, DecidableEq

/-- The modelled filesystem: an association list from paths to file
information.  More recent writes are prepended, so `FS.lookup` sees the
newest entry for a path. -/
abbrev FS := List (String × FileInfo)

/-- Look a path up in the filesystem (newest entry first). -/
def FS.lookup : FS → String → Option FileInfo
  | [], _ => none
  | (q, fi) :: rest, p => if q = p then some fi else FS.lookup rest p

/-- Create (or overwrite) a file with the given textual content; the
resulting file is readable and has the content's length as its size. -/
def FS.write (fs : FS) (p : String) (content : String) : FS :=
  (p, ⟨content.length, true, content⟩) :: fs

/-! ## External process model (`run_cmd`, source lines 13-29) -/

/-- What the operating system does with one attempted child process:
either the process runs to completion with an exit code and captured
stdout/stderr, or it cannot be launched at all. -/
inductive ProcResult where
  | completed (exitCode : Nat) (stdout : String) (stderr : String)
  | launchFailure (msg : String)
deriving Repr, DecidableEq

/-- The Python exceptions relevant to the source: `CalledProcessError`
(with the attributes `subprocess.check_output` actually sets: command,
return code, captured stdout, and a stderr attribute that is `none`
because stderr is not redirected), `OSError`-style launch errors, and
the file errors raised by `open`. -/
inductive PyError where
  | calledProcessError (cmd : List String) (returncode : Nat) (stdout : String)
      (stderr : Option String)
  | launchError (msg : String)
  | fileNotFoundError (msg : String)
  | permissionError (msg : String)
deriving Repr, DecidableEq

/-- Rendering of an argument vector inside an error message. -/
def cmdListRepr (cmd : List String) : String :=
  "[" ++ String.intercalate ", " cmd ++ "]"

/-- The textual form `str(err)` of each modelled exception. -/
def PyError.str : PyError → String
  | .calledProcessError cmd code _ _ =>
      "Command " ++ cmdListRepr cmd ++ " returned non-zero exit status "
        ++ toString code ++ "."
  | .launchError m => m
  | .fileNotFoundError m => "[Errno 2] No such file or directory: " ++ m
  | .permissionError m => "[Errno 13] Permission denied: " ++ m

/-- `subprocess.check_output(cmd)` given the OS-level result of the
attempt: on exit code 0 it returns the captured stdout; on a nonzero
exit it raises `CalledProcessError` carrying the command, the return
code and the captured stdout — its stderr attribute is `none` because
the call does not redirect stderr; on a launch failure it raises the
underlying `OSError`. -/
def check_output (cmd : List String) (res : ProcResult) : Except PyError String :=
  match res with
  | .completed code out _stderr =>
      if code = 0 then .ok out
      else .error (.calledProcessError cmd code out none)
  | .launchFailure m => .error (.launchError m)

/-- How a modelled procedure ends: a normal return, `sys.exit(code)`, or
an uncaught (re-raised) exception. -/
inductive Outcome (α : Type) where
  | ok (v : α)
  | exit (code : Nat)
  | raised (e : PyError)
deriving Repr, DecidableEq

/-- The mutable state threaded through the embedded Python code: the
filesystem, the logger's accumulated messages, and the external commands
attempted so far (in order). -/
structure RunState where
  fs : FS
  log : List String
  invoked : List (List String)
deriving Repr, DecidableEq

/-- Oracle assigning to each argument vector the OS-level result of
attempting it. -/
abbrev World := List String → ProcResult

/-- Translation of `run_cmd(cmd, step)` (source lines 13-29; renamed
`runCmd` here).  It attempts the command; on success it returns the
captured output; on `CalledProcessError` it logs
`"In {step} following error occured\n{err}"` and calls `sys.exit(1)`;
on any other exception it logs
`"In {step} unknown error occured\n{err}"` and re-raises the same
exception. -/
def runCmd (cmd : List String) (step : String) (w : World) (s : RunState) :
    RunState × Outcome String :=
  let s1 : RunState := { s with invoked := s.invoked ++ [cmd] }
  match check_output cmd (w cmd) with
  | .ok out => (s1, .ok out)
  | .error e =>
    match e with
    | .calledProcessError _ _ _ _ =>
        ({ s1 with
            log := s1.log ++ ["In " ++ step ++ " following error occured\n" ++ PyError.str e] },
          .exit 1)
    | _ =>
        ({ s1 with
            log := s1.log ++ ["In " ++ step ++ " unknown error occured\n" ++ PyError.str e] },
          .raised e)

/-- Extract the stderr information carried by a `check_output` failure,
if any. -/
def carriedStderr : Except PyError String → Option String
  | .error (.calledProcessError _ _ _ st) => st
  | _ => none

/-! ## Pipeline configuration (source lines 31-48 and the luigi task
parameters)

`Out_Prefix.prefix` (the global output root, called `out_dir` after
`Output_Dirs.out_dir` since its source name is a Lean keyword),
`Samples.manifest_file`, and every per-task luigi parameter are gathered
into one explicit configuration record, as the spec's design notes
prescribe for the configuration singletons. -/

structure Config where
  out_dir : String
  manifest_file : String
  sample_type : String
  input_format : String
  trim_left_f : String
  trunc_len_f : String
  trim_left_r : String
  trunc_len_r : String
  n_threads : String
  classifier : String
  n_jobs : String
deriving Repr, DecidableEq

/-- `Output_Dirs.denoise_dir` (source line 37). -/
def Output_Dirs.denoise_dir (c : Config) : String := pathJoin c.out_dir "dada2"

/-- `Output_Dirs.taxonomy_dir` (source line 38). -/
def Output_Dirs.taxonomy_dir (c : Config) : String := pathJoin c.out_dir "taxonomy"

/-- `Output_Dirs.export_dir` (source line 39). -/
def Output_Dirs.export_dir (c : Config) : String := pathJoin c.out_dir "exported"

/-- A `luigi.LocalTarget`: a filesystem path plus whether it was created
with `format=luigi.format.Nop`. -/
structure LocalTarget where
  path : String
  nopFormat : Bool
deriving Repr, DecidableEq

/-! ### Declared output paths of each task (from each task's `output`) -/

def Import_Data.outPath (c : Config) : String :=
  pathJoin c.out_dir "paired-end-demux.qza"

def Summarize.outPath (c : Config) : String :=
  pathJoin c.out_dir "paired-end-demux.qzv"

def Denoise.tablePath (c : Config) : String :=
  pathJoin (Output_Dirs.denoise_dir c) "dada2-table.qza"

def Denoise.repSeqsPath (c : Config) : String :=
  pathJoin (Output_Dirs.denoise_dir c) "dada2-rep-seqs.qza"

def Denoise.statsPath (c : Config) : String :=
  pathJoin (Output_Dirs.denoise_dir c) "stats-dada2.qza"

def Denoise.logPath (c : Config) : String :=
  pathJoin (Output_Dirs.denoise_dir c) "dada2_log.txt"

def Denoise_Tabulate.outPath (c : Config) : String :=
  pathJoin (Output_Dirs.denoise_dir c) "stats-dada2.qzv"

def Taxonomic_Classification.taxonomyPath (c : Config) : String :=
  pathJoin (Output_Dirs.taxonomy_dir c) "taxonomy.qza"

def Taxonomic_Classification.logPath (c : Config) : String :=
  pathJoin (Output_Dirs.taxonomy_dir c) "taxonomy_log.txt"

def Taxonomy_Tabulate.outPath (c : Config) : String :=
  pathJoin (Output_Dirs.taxonomy_dir c) "taxonomy.qzv"

def Export_Feature_Table.outPath (c : Config) : String :=
  pathJoin (Output_Dirs.export_dir c) "feature-table.biom"

def Export_Taxonomy.outPath (c : Config) : String :=
  pathJoin (Output_Dirs.export_dir c) "taxonomy.tsv"

def Export_Representative_Seqs.outPath (c : Config) : String :=
  pathJoin (Output_Dirs.export_dir c) "dna-sequences.fasta"

def Convert_Biom_to_TSV.outPath (c : Config) : String :=
  pathJoin (Output_Dirs.export_dir c) "feature-table.tsv"

def Generate_Combined_Feature_Table.tablePath (c : Config) : String :=
  pathJoin (Output_Dirs.export_dir c) "ASV_table_combined.tsv"

def Generate_Combined_Feature_Table.logPath (c : Config) : String :=
  pathJoin (Output_Dirs.export_dir c) "ASV_table_combined.log"

/-! ### Task identity strings (`str(self)`, luigi's task id rendering of
the significant parameters in declaration order) -/

def Import_Data.step (c : Config) : String :=
  "Import_Data(sample_type=" ++ c.sample_type ++ ", input_format=" ++ c.input_format ++ ")"

def Summarize.step : String := "Summarize()"

def Denoise.step (c : Config) : String :=
  "Denoise(trim_left_f=" ++ c.trim_left_f ++ ", trunc_len_f=" ++ c.trunc_len_f
    ++ ", trim_left_r=" ++ c.trim_left_r ++ ", trunc_len_r=" ++ c.trunc_len_r
    ++ ", n_threads=" ++ c.n_threads ++ ")"

def Denoise_Tabulate.step : String := "Denoise_Tabulate()"

def Taxonomic_Classification.step (c : Config) : String :=
  "Taxonomic_Classification(classifier=" ++ c.classifier ++ ", n_jobs=" ++ c.n_jobs ++ ")"

def Taxonomy_Tabulate.step : String := "Taxonomy_Tabulate()"

def Export_Feature_Table.step : String := "Export_Feature_Table()"

def Export_Taxonomy.step : String := "Export_Taxonomy()"

def Export_Representative_Seqs.step : String := "Export_Representative_Seqs()"

def Convert_Biom_to_TSV.step : String := "Convert_Biom_to_TSV()"

def Generate_Combined_Feature_Table.step : String := "Generate_Combined_Feature_Table()"

/-! ### Argument vectors each task builds for its external tool -/

def Import_Data.cmd (c : Config) : List String :=
  ["qiime", "tools", "import",
    "--type", c.sample_type,
    "--input-path", c.manifest_file,
    "--output-path", Import_Data.outPath c,
    "--input-format", c.input_format]

def Summarize.cmd (c : Config) : List String :=
  ["qiime", "demux", "summarize",
    "--i-data", Import_Data.outPath c,
    "--o-visualization", Summarize.outPath c]

def Denoise.cmd (c : Config) : List String :=
  ["qiime", "dada2", "denoise-paired",
    "--i-demultiplexed-seqs", Import_Data.outPath c,
    "--p-trim-left-f", c.trim_left_f,
    "--p-trunc-len-f", c.trunc_len_f,
    "--p-trim-left-r", c.trim_left_r,
    "--p-trunc-len-r", c.trunc_len_r,
    "--p-n-threads", c.n_threads,
    "--o-table", Denoise.tablePath c,
    "--o-representative-sequences", Denoise.repSeqsPath c,
    "--o-denoising-stats", Denoise.statsPath c,
    "--verbose"]

def Denoise_Tabulate.cmd (c : Config) : List String :=
  ["qiime", "metadata", "tabulate",
    "--m-input-file", Denoise.statsPath c,
    "--o-visualization", Denoise_Tabulate.outPath c]

def Taxonomic_Classification.cmd (c : Config) : List String :=
  ["qiime", "feature-classifier", "classify-sklearn",
    "--i-classifier", c.classifier,
    "--i-reads", Denoise.repSeqsPath c,
    "--o-classification", Taxonomic_Classification.taxonomyPath c,
    "--p-n-jobs", c.n_jobs,
    "--verbose"]

def Taxonomy_Tabulate.cmd (c : Config) : List String :=
  ["qiime", "metadata", "tabulate",
    "--m-input-file", Taxonomic_Classification.taxonomyPath c,
    "--o-visualization", Taxonomy_Tabulate.outPath c]

def Export_Feature_Table.cmd (c : Config) : List String :=
  ["qiime", "tools", "export",
    "--input-path", Denoise.tablePath c,
    "--output-path", dirname (Export_Feature_Table.outPath c)]

def Export_Taxonomy.cmd (c : Config) : List String :=
  ["qiime", "tools", "export",
    "--input-path", Taxonomic_Classification.taxonomyPath c,
    "--output-path", dirname (Export_Taxonomy.outPath c)]

def Export_Representative_Seqs.cmd (c : Config) : List String :=
  ["qiime", "tools", "export",
    "--input-path", Denoise.repSeqsPath c,
    "--output-path", dirname (Export_Representative_Seqs.outPath c)]

def Convert_Biom_to_TSV.cmd (c : Config) : List String :=
  ["biom", "convert",
    "-i", Export_Feature_Table.outPath c,
    "-o", Convert_Biom_to_TSV.outPath c,
    "--to-tsv"]

def Generate_Combined_Feature_Table.cmd (c : Config) : List String :=
  ["generate_combined_feature_table.py",
    "-f", Convert_Biom_to_TSV.outPath c,
    "-s", Export_Representative_Seqs.outPath c,
    "-t", Export_Taxonomy.outPath c,
    "-o", Generate_Combined_Feature_Table.tablePath c]

/-! ### The two run-procedure shapes shared by the tasks -/

/-- Sequencing of `runCmd` results: stop on `sys.exit` or a raised
exception, continue on a normal return. -/
def bindRun (r : RunState × Outcome String)
    (k : RunState → String → RunState × Outcome Unit) : RunState × Outcome Unit :=
  match r with
  | (s, .ok out) => k s out
  | (s, .exit n) => (s, .exit n)
  | (s, .raised e) => (s, .raised e)

/-- The `run` shape shared by `Summarize`, `Denoise_Tabulate`,
`Taxonomy_Tabulate`, the three `Export_*` tasks and
`Convert_Biom_to_TSV`: `run_cmd(["mkdir", "-p", dir], step)` followed by
`run_cmd(cmd, step)`, nothing else. -/
def simpleTask (dir : String) (cmd : List String) (step : String)
    (w : World) (s : RunState) : RunState × Outcome Unit :=
  bindRun (runCmd ["mkdir", "-p", dir] step w s) (fun s1 _ =>
    bindRun (runCmd cmd step w s1) (fun s2 _ => (s2, .ok ())))

/-- The `run` shape shared by `Denoise`, `Taxonomic_Classification` and
`Generate_Combined_Feature_Table`: mkdir, the main command, and then —
only after the main command returned successfully — the captured output
is written to the declared log target. -/
def logTask (dir : String) (cmd : List String) (step : String) (logPath : String)
    (w : World) (s : RunState) : RunState × Outcome Unit :=
  bindRun (runCmd ["mkdir", "-p", dir] step w s) (fun s1 _ =>
    bindRun (runCmd cmd step w s1) (fun s2 out =>
      ({ s2 with fs := FS.write s2.fs logPath out }, .ok ())))

/-! ### The eleven task `run` procedures -/

/-- `Import_Data.run` (source lines 61-96): mkdir, then open the
manifest for read — `FileNotFoundError` logs a fixed message and calls
`sys.exit(1)`, any other error logs and re-raises — then the qiime import
command is attempted. -/
def Import_Data.run (c : Config) (w : World) (s : RunState) : RunState × Outcome Unit :=
  bindRun (runCmd ["mkdir", "-p", c.out_dir] (Import_Data.step c) w s) (fun s1 _ =>
    match FS.lookup s1.fs c.manifest_file with
    | none =>
        ({ s1 with
            log := s1.log ++ ["Input file for qiime tools import does not exist..."] },
          .exit 1)
    | some fi =>
        if fi.readable then
          bindRun (runCmd (Import_Data.cmd c) (Import_Data.step c) w s1)
            (fun s2 _ => (s2, .ok ()))
        else
          ({ s1 with
              log := s1.log ++ ["In Import_Data() following error occured\n"
                ++ PyError.str (.permissionError c.manifest_file)] },
            .raised (.permissionError c.manifest_file)))

def Summarize.run (c : Config) : World → RunState → RunState × Outcome Unit :=
  simpleTask c.out_dir (Summarize.cmd c) Summarize.step

def Denoise.run (c : Config) : World → RunState → RunState × Outcome Unit :=
  logTask (Output_Dirs.denoise_dir c) (Denoise.cmd c) (Denoise.step c) (Denoise.logPath c)

def Denoise_Tabulate.run (c : Config) : World → RunState → RunState × Outcome Unit :=
  simpleTask (Output_Dirs.denoise_dir c) (Denoise_Tabulate.cmd c) Denoise_Tabulate.step

def Taxonomic_Classification.run (c : Config) : World → RunState → RunState × Outcome Unit :=
  logTask (Output_Dirs.taxonomy_dir c) (Taxonomic_Classification.cmd c)
    (Taxonomic_Classification.step c) (Taxonomic_Classification.logPath c)

def Taxonomy_Tabulate.run (c : Config) : World → RunState → RunState × Outcome Unit :=
  simpleTask (Output_Dirs.taxonomy_dir c) (Taxonomy_Tabulate.cmd c) Taxonomy_Tabulate.step

def Export_Feature_Table.run (c : Config) : World → RunState → RunState × Outcome Unit :=
  simpleTask (Output_Dirs.export_dir c) (Export_Feature_Table.cmd c) Export_Feature_Table.step

def Export_Taxonomy.run (c : Config) : World → RunState → RunState × Outcome Unit :=
  simpleTask (Output_Dirs.export_dir c) (Export_Taxonomy.cmd c) Export_Taxonomy.step

def Export_Representative_Seqs.run (c : Config) : World → RunState → RunState × Outcome Unit :=
  simpleTask (Output_Dirs.export_dir c) (Export_Representative_Seqs.cmd c)
    Export_Representative_Seqs.step

def Convert_Biom_to_TSV.run (c : Config) : World → RunState → RunState × Outcome Unit :=
  simpleTask (Output_Dirs.export_dir c) (Convert_Biom_to_TSV.cmd c) Convert_Biom_to_TSV.step

def Generate_Combined_Feature_Table.run (c : Config) :
    World → RunState → RunState × Outcome Unit :=
  logTask (Output_Dirs.export_dir c) (Generate_Combined_Feature_Table.cmd c)
    Generate_Combined_Feature_Table.step (Generate_Combined_Feature_Table.logPath c)

/-! ### The eleven task `output` declarations, embedded in the same
state-passing style as `run` so that their freedom from side effects is
a provable statement rather than a typing fact. -/

/-- Keyed outputs of `Denoise` (source lines 137-150). -/
structure DenoiseOutput where
  table : LocalTarget
  rep_seqs : LocalTarget
  stats : LocalTarget
  log : LocalTarget
deriving Repr, DecidableEq

/-- Keyed outputs of `Taxonomic_Classification` (source lines 227-236). -/
structure TaxonomyOutput where
  taxonomy : LocalTarget
  log : LocalTarget
deriving Repr, DecidableEq

/-- Keyed outputs of `Generate_Combined_Feature_Table` (source lines
422-431). -/
structure CombinedOutput where
  table : LocalTarget
  log : LocalTarget
deriving Repr, DecidableEq

def Import_Data.output (c : Config) (s : RunState) : RunState × LocalTarget :=
  let paired_end_demux := pathJoin c.out_dir "paired-end-demux.qza"
  (s, ⟨paired_end_demux, false⟩)

def Summarize.output (c : Config) (s : RunState) : RunState × LocalTarget :=
  let summary_file := pathJoin c.out_dir "paired-end-demux.qzv"
  (s, ⟨summary_file, false⟩)

def Denoise.output (c : Config) (s : RunState) : RunState × DenoiseOutput :=
  let denoise_table := pathJoin (Output_Dirs.denoise_dir c) "dada2-table.qza"
  let rep_seqs := pathJoin (Output_Dirs.denoise_dir c) "dada2-rep-seqs.qza"
  let denoise_stats := pathJoin (Output_Dirs.denoise_dir c) "stats-dada2.qza"
  let dada2_log := pathJoin (Output_Dirs.denoise_dir c) "dada2_log.txt"
  (s, ⟨⟨denoise_table, false⟩, ⟨rep_seqs, false⟩, ⟨denoise_stats, false⟩, ⟨dada2_log, true⟩⟩)

def Denoise_Tabulate.output (c : Config) (s : RunState) : RunState × LocalTarget :=
  let denoise_tabulated := pathJoin (Output_Dirs.denoise_dir c) "stats-dada2.qzv"
  (s, ⟨denoise_tabulated, false⟩)

def Taxonomic_Classification.output (c : Config) (s : RunState) :
    RunState × TaxonomyOutput :=
  let classified_taxonomy := pathJoin (Output_Dirs.taxonomy_dir c) "taxonomy.qza"
  let taxonomy_log := pathJoin (Output_Dirs.taxonomy_dir c) "taxonomy_log.txt"
  (s, ⟨⟨classified_taxonomy, false⟩, ⟨taxonomy_log, true⟩⟩)

def Taxonomy_Tabulate.output (c : Config) (s : RunState) : RunState × LocalTarget :=
  let tabulated := pathJoin (Output_Dirs.taxonomy_dir c) "taxonomy.qzv"
  (s, ⟨tabulated, false⟩)

def Export_Feature_Table.output (c : Config) (s : RunState) : RunState × LocalTarget :=
  let biom := pathJoin (Output_Dirs.export_dir c) "feature-table.biom"
  (s, ⟨biom, false⟩)

def Export_Taxonomy.output (c : Config) (s : RunState) : RunState × LocalTarget :=
  let tsv := pathJoin (Output_Dirs.export_dir c) "taxonomy.tsv"
  (s, ⟨tsv, false⟩)

def Export_Representative_Seqs.output (c : Config) (s : RunState) : RunState × LocalTarget :=
  let fasta := pathJoin (Output_Dirs.export_dir c) "dna-sequences.fasta"
  (s, ⟨fasta, false⟩)

def Convert_Biom_to_TSV.output (c : Config) (s : RunState) : RunState × LocalTarget :=
  let tsv := pathJoin (Output_Dirs.export_dir c) "feature-table.tsv"
  (s, ⟨tsv, false⟩)

def Generate_Combined_Feature_Table.output (c : Config) (s : RunState) :
    RunState × CombinedOutput :=
  let combined_table := pathJoin (Output_Dirs.export_dir c) "ASV_table_combined.tsv"
  let log := pathJoin (Output_Dirs.export_dir c) "ASV_table_combined.log"
  (s, ⟨⟨combined_table, false⟩, ⟨log, true⟩⟩)

/-! ## Scheduler layer

The dependency resolver, the artifact existence check and the overall
CLI exit behaviour live in the luigi library, which is not part of this
repository's source; they are modelled from the spec (sections 4.1-4.3
and 6) as the status rules direct. -/

/-- Modelled from the spec (section 4.1): `LocalTarget.exists` is luigi
library code absent from the repository source; per the spec it is true
iff the underlying path is present and the file is non-empty and
readable. -/
def targetExists (fs : FS) (p : String) : Bool :=
  match FS.lookup fs p with
  | some fi => decide (0 < fi.size) && fi.readable
  | none => false

/-- Modelled from the spec (section 4.2): what a node's `run` does, as
the scheduler observes it — either it completes without error, having
populated some files, or its external command exits with a nonzero code
(which in the source aborts the whole process via `run_cmd`). -/
inductive RunBehavior where
  | succeeds (writes : List (String × FileInfo))
  | cmdFails (exitCode : Nat)
deriving Repr, DecidableEq

/-- Modelled from the spec (section 4.2): a task node — declared
dependencies (in declaration order), declared output artifact paths, and
the observable behaviour of its `run` procedure. -/
structure Node where
  deps : List Nat
  outs : List String
  runB : RunBehavior
deriving Repr, DecidableEq

/-- Modelled from the spec (section 4.3): the state of one resolution
run — the filesystem, the memoised set of resolved node identities, and
the nodes whose `run` procedure has been invoked, in order. -/
structure SchedState where
  fs : FS
  resolved : List Nat
  ran : List Nat
deriving Repr, DecidableEq

/-- Modelled from the spec (section 7): the failure taxonomy of the
resolver (`outOfFuel` is a model artifact for the recursion bound; a
finite DAG resolved with enough fuel never reaches it). -/
inductive Fail where
  | cyclicDependency (n : Nat)
  | incompleteOutput (n : Nat)
  | externalCommandFailed (n : Nat) (exitCode : Nat)
  | outOfFuel (n : Nat)
deriving Repr, DecidableEq

/-- Modelled from the spec (section 4.2): a node is complete iff every
declared output reports `targetExists` — presence only, never content
correctness. -/
def complete (g : Nat → Node) (fs : FS) (n : Nat) : Bool :=
  (g n).outs.all (fun p => targetExists fs p)

/-- Modelled from the spec (section 4.3, step 4): invoke `run`, then
re-check completeness.  A command failure surfaces as
`externalCommandFailed` naming the node (in the source, `run_cmd` exits
the whole process at this point); a run that returns without error but
leaves a declared output missing fails with `incompleteOutput`.  A run
populates its files without disturbing artifacts already present (the
scheduler never deletes artifacts, spec section 3). -/
def runNode (g : Nat → Node) (n : Nat) (s : SchedState) : SchedState × Option Fail :=
  let s1 := { s with ran := s.ran ++ [n] }
  match (g n).runB with
  | .cmdFails code => (s1, some (.externalCommandFailed n code))
  | .succeeds ws =>
      let fs2 := s1.fs ++ ws
      if complete g fs2 n then
        ({ s1 with fs := fs2, resolved := s1.resolved ++ [n] }, none)
      else
        ({ s1 with fs := fs2 }, some (.incompleteOutput n))

/-- Sequential resolution of a list of dependencies, stopping at the
first failure (dependencies are resolved in declaration order and each
must fully complete before the next starts). -/
def seqFold (f : Nat → SchedState → SchedState × Option Fail) :
    List Nat → SchedState → SchedState × Option Fail
  | [], s => (s, none)
  | d :: ds, s =>
    match f d s with
    | (s1, none) => seqFold f ds s1
    | (s1, some e) => (s1, some e)

/-- Modelled from the spec (section 4.3): depth-first memoised
resolution of node `n`.  If `n` is already resolved, return at once; if
`n` is on the current visiting path, fail with `cyclicDependency`;
otherwise resolve the dependencies in order, then skip `run` when the
node is already complete, else invoke `run` and re-check. -/
def resolve (g : Nat → Node) : Nat → List Nat → Nat → SchedState → SchedState × Option Fail
  | 0, _, n, s => (s, some (.outOfFuel n))
  | fuel + 1, visiting, n, s =>
    if n ∈ s.resolved then (s, none)
    else if n ∈ visiting then (s, some (.cyclicDependency n))
    else
      match seqFold (fun d t => resolve g fuel (n :: visiting) d t) (g n).deps s with
      | (s1, some e) => (s1, some e)
      | (s1, none) =>
        if complete g s1.fs n then ({ s1 with resolved := s1.resolved ++ [n] }, none)
        else runNode g n s1

/-- Modelled from the spec (section 6): the overall CLI exit status —
0 when resolution of the requested node succeeds, 1 when it aborts on
the first failure. -/
def pipelineExitCode (g : Nat → Node) (fuel : Nat) (root : Nat) (s : SchedState) : Nat :=
  match (resolve g fuel [] root s).2 with
  | none => 0
  | some _ => 1

/-- `DependsOn g m n`: node `m` transitively depends on node `n`. -/
inductive DependsOn (g : Nat → Node) : Nat → Nat → Prop where
  | direct {m d : Nat} : d ∈ (g m).deps → DependsOn g m d
  | step {m d k : Nat} : d ∈ (g m).deps → DependsOn g d k → DependsOn g m k

/-- Agreement of two optional files on presence, size and readability —
everything `targetExists` may observe — while contents may differ. -/
def metaSame : Option FileInfo → Option FileInfo → Bool
  | none, none => true
  | some a, some b => (a.size == b.size) && (a.readable == b.readable)
  | _, _ => false

/-! ## Concrete demonstration inputs shared by witnesses -/

/-- A small concrete configuration. -/
def cDemo : Config := ⟨"o", "m", "st", "fmt", "1", "2", "3", "4", "5", "cl", "6"⟩

/-- A world in which every command completes with exit code 0 and empty
output. -/
def wOk : World := fun _ => .completed 0 "" ""

/-- A world in which `mkdir` succeeds and every other command exits 1. -/
def wMainFails : World := fun cmd =>
  match cmd with
  | "mkdir" :: _ => .completed 0 "" ""
  | _ => .completed 1 "" ""

/-- The empty starting state. -/
def st0 : RunState := ⟨[], [], []⟩

/-! ## Demonstration graphs for the scheduler layer -/

/-- A sample readable non-empty file. -/
def fiA : FileInfo := ⟨1, true, "x"⟩

/-- One isolated node with no declared outputs. -/
def gOne : Nat → Node := fun _ => ⟨[], [], .succeeds []⟩

/-- One node declaring output `a` whose run writes nothing. -/
def gOut : Nat → Node := fun _ => ⟨[], ["a"], .succeeds []⟩

/-- One node declaring output `a` whose run writes it. -/
def gWrite : Nat → Node := fun _ => ⟨[], ["a"], .succeeds [("a", fiA)]⟩

/-- Node 0 fails with exit code 2; every other node depends on node 0. -/
def gFail2 : Nat → Node := fun k =>
  if k = 0 then ⟨[], ["x"], .cmdFails 2⟩ else ⟨[0], ["y"], .succeeds [("y", fiA)]⟩

/-- A filesystem already containing artifact `a`. -/
def fsA : FS := [("a", fiA)]

/-! ## Claim C3 and claim C8 (the external process runner) -/

/-- C3 (counterexample).  The claim says a nonzero exit produces a
failure carrying the captured stderr.  Concretely: a child process that
exits 2 with stderr text `boom` yields a `CalledProcessError` whose
stderr attribute is `none` — the stderr text is not captured and not
carried — and `runCmd` turns it into `sys.exit(1)` rather than a
propagated failure value. -/
theorem c3_stderr_not_captured :
    check_output ["qiime"] (.completed 2 "out" "boom")
        = .error (.calledProcessError ["qiime"] 2 "out" none)
      ∧ carriedStderr (check_output ["qiime"] (.completed 2 "out" "boom")) ≠ some "boom"
      ∧ (runCmd ["qiime"] "step0" (fun _ => .completed 2 "out" "boom")
            ⟨[], [], []⟩).2 = .exit 1 := by
  refine ⟨rfl, by decide, rfl⟩

/-- C3 (amended).  On exit code 0, `runCmd` returns the captured stdout.
On a nonzero exit it logs one message naming the step and the
`CalledProcessError` text (which carries the command and the exit code,
but no stderr, since stderr is not captured) and exits the whole process
with status 1; the command is attempted exactly once (no retry). -/
theorem c3_runCmd_contract (cmd : List String) (step : String) (w : World)
    (s : RunState) (code : Nat) (out err : String)
    (hw : w cmd = .completed code out err) :
    (code = 0 →
        runCmd cmd step w s = ({ s with invoked := s.invoked ++ [cmd] }, .ok out))
      ∧ (code ≠ 0 →
        runCmd cmd step w s =
          ({ s with
              invoked := s.invoked ++ [cmd],
              log := s.log ++ ["In " ++ step ++ " following error occured\n"
                ++ PyError.str (.calledProcessError cmd code out none)] },
            .exit 1)) := by
  constructor
  · intro h0
    simp [runCmd, check_output, hw, h0]
  · intro hne
    simp [runCmd, check_output, hw, hne]

/-- C3 (witness for the amended theorem): both branches at concrete
inputs. -/
theorem c3_runCmd_contract_witness :
    (runCmd ["ls"] "st" (fun _ => .completed 0 "o" "e") ⟨[], [], []⟩
        = (⟨[], [], [["ls"]]⟩, .ok "o"))
      ∧ (runCmd ["ls"] "st" (fun _ => .completed 3 "o" "e") ⟨[], [], []⟩
        = (⟨[], ["In st following error occured\n"
              ++ PyError.str (.calledProcessError ["ls"] 3 "o" none)], [["ls"]]⟩,
            .exit 1)) := by
  constructor
  · exact (c3_runCmd_contract ["ls"] "st" _ ⟨[], [], []⟩ 0 "o" "e" rfl).1 rfl
  · exact (c3_runCmd_contract ["ls"] "st" _ ⟨[], [], []⟩ 3 "o" "e" rfl).2 (by decide)

/-- C8.  When the process cannot be launched (binary not found,
permission denied), `check_output` raises an `OSError`-style exception,
which falls into the generic `except` branch of `run_cmd`: it is logged
and then re-raised **unchanged** — the outcome is `raised` with the very
same error, never a `sys.exit`. -/
theorem c8_launch_error_propagated (cmd : List String) (step : String)
    (w : World) (s : RunState) (msg : String)
    (hw : w cmd = .launchFailure msg) :
    runCmd cmd step w s =
      ({ s with
          invoked := s.invoked ++ [cmd],
          log := s.log ++ ["In " ++ step ++ " unknown error occured\n"
            ++ PyError.str (.launchError msg)] },
        .raised (.launchError msg))
      ∧ ∀ n, (runCmd cmd step w s).2 ≠ .exit n := by
  constructor
  · simp [runCmd, check_output, hw]
  · intro n
    simp [runCmd, check_output, hw]

/-- C8 (witness): a concrete launch failure is re-raised unchanged. -/
theorem c8_launch_error_propagated_witness :
    runCmd ["nosuch"] "st" (fun _ => .launchFailure "not found") ⟨[], [], []⟩
      = (⟨[], ["In st unknown error occured\n"
            ++ PyError.str (.launchError "not found")], [["nosuch"]]⟩,
          .raised (.launchError "not found")) :=
  (c8_launch_error_propagated ["nosuch"] "st" _ ⟨[], [], []⟩ "not found" rfl).1

/-! ## Helper lemmas about the two shared run shapes -/

theorem logTask_ok (dir : String) (cmd : List String) (step lp : String)
    (w : World) (s : RunState) (o1 e1 o2 e2 : String)
    (h1 : w ["mkdir", "-p", dir] = .completed 0 o1 e1)
    (h2 : w cmd = .completed 0 o2 e2) :
    logTask dir cmd step lp w s =
      ({ s with
          fs := FS.write s.fs lp o2,
          invoked := s.invoked ++ [["mkdir", "-p", dir], cmd] }, .ok ()) := by
  simp [logTask, bindRun, runCmd, check_output, h1, h2]

theorem logTask_mainFail (dir : String) (cmd : List String) (step lp : String)
    (w : World) (s : RunState) (o1 e1 : String) (k : Nat) (o2 e2 : String)
    (h1 : w ["mkdir", "-p", dir] = .completed 0 o1 e1)
    (h2 : w cmd = .completed k o2 e2) (hk : k ≠ 0) :
    logTask dir cmd step lp w s =
      ({ s with
          invoked := s.invoked ++ [["mkdir", "-p", dir], cmd],
          log := s.log ++ ["In " ++ step ++ " following error occured\n"
            ++ PyError.str (.calledProcessError cmd k o2 none)] }, .exit 1) := by
  simp [logTask, bindRun, runCmd, check_output, h1, h2, hk]

theorem logTask_fail_fs (dir : String) (cmd : List String) (step lp : String)
    (w : World) (s : RunState)
    (h : (logTask dir cmd step lp w s).2 ≠ .ok ()) :
    (logTask dir cmd step lp w s).1.fs = s.fs := by
  rcases h1 : w ["mkdir", "-p", dir] with ⟨c1, o1, e1⟩ | m1
  · by_cases hc1 : c1 = 0
    · rcases h2 : w cmd with ⟨c2, o2, e2⟩ | m2
      · by_cases hc2 : c2 = 0
        · exact absurd (by simp [logTask, bindRun, runCmd, check_output, h1, h2, hc1, hc2]) h
        · simp [logTask, bindRun, runCmd, check_output, h1, h2, hc1, hc2]
      · simp [logTask, bindRun, runCmd, check_output, h1, h2, hc1]
    · simp [logTask, bindRun, runCmd, check_output, h1, hc1]
  · simp [logTask, bindRun, runCmd, check_output, h1]

theorem logTask_fs_indep (dir : String) (cmd : List String) (step lp : String)
    (w : World) (f1 f2 : FS) (lg : List String) (inv : List (List String)) :
    (logTask dir cmd step lp w ⟨f1, lg, inv⟩).2 = (logTask dir cmd step lp w ⟨f2, lg, inv⟩).2
      ∧ (logTask dir cmd step lp w ⟨f1, lg, inv⟩).1.log
          = (logTask dir cmd step lp w ⟨f2, lg, inv⟩).1.log
      ∧ (logTask dir cmd step lp w ⟨f1, lg, inv⟩).1.invoked
          = (logTask dir cmd step lp w ⟨f2, lg, inv⟩).1.invoked := by
  rcases h1 : w ["mkdir", "-p", dir] with ⟨c1, o1, e1⟩ | m1
  · by_cases hc1 : c1 = 0
    · rcases h2 : w cmd with ⟨c2, o2, e2⟩ | m2
      · by_cases hc2 : c2 = 0
        · simp [logTask, bindRun, runCmd, check_output, h1, h2, hc1, hc2]
        · simp [logTask, bindRun, runCmd, check_output, h1, h2, hc1, hc2]
      · simp [logTask, bindRun, runCmd, check_output, h1, h2, hc1]
    · simp [logTask, bindRun, runCmd, check_output, h1, hc1]
  · simp [logTask, bindRun, runCmd, check_output, h1]

theorem simpleTask_fs_unchanged (dir : String) (cmd : List String) (step : String)
    (w : World) (s : RunState) :
    (simpleTask dir cmd step w s).1.fs = s.fs := by
  rcases h1 : w ["mkdir", "-p", dir] with ⟨c1, o1, e1⟩ | m1
  · by_cases hc1 : c1 = 0
    · rcases h2 : w cmd with ⟨c2, o2, e2⟩ | m2
      · by_cases hc2 : c2 = 0
        · simp [simpleTask, bindRun, runCmd, check_output, h1, h2, hc1, hc2]
        · simp [simpleTask, bindRun, runCmd, check_output, h1, h2, hc1, hc2]
      · simp [simpleTask, bindRun, runCmd, check_output, h1, h2, hc1]
    · simp [simpleTask, bindRun, runCmd, check_output, h1, hc1]
  · simp [simpleTask, bindRun, runCmd, check_output, h1]

theorem simpleTask_fs_indep (dir : String) (cmd : List String) (step : String)
    (w : World) (f1 f2 : FS) (lg : List String) (inv : List (List String)) :
    (simpleTask dir cmd step w ⟨f1, lg, inv⟩).2 = (simpleTask dir cmd step w ⟨f2, lg, inv⟩).2
      ∧ (simpleTask dir cmd step w ⟨f1, lg, inv⟩).1.log
          = (simpleTask dir cmd step w ⟨f2, lg, inv⟩).1.log
      ∧ (simpleTask dir cmd step w ⟨f1, lg, inv⟩).1.invoked
          = (simpleTask dir cmd step w ⟨f2, lg, inv⟩).1.invoked := by
  rcases h1 : w ["mkdir", "-p", dir] with ⟨c1, o1, e1⟩ | m1
  · by_cases hc1 : c1 = 0
    · rcases h2 : w cmd with ⟨c2, o2, e2⟩ | m2
      · by_cases hc2 : c2 = 0
        · simp [simpleTask, bindRun, runCmd, check_output, h1, h2, hc1, hc2]
        · simp [simpleTask, bindRun, runCmd, check_output, h1, h2, hc1, hc2]
      · simp [simpleTask, bindRun, runCmd, check_output, h1, h2, hc1]
    · simp [simpleTask, bindRun, runCmd, check_output, h1, hc1]
  · simp [simpleTask, bindRun, runCmd, check_output, h1]

/-! ## Claim C7 (outputs are pure functions of configuration) -/

/-- C7.  Every task's `output` declaration is a pure function of the
configuration: invoked on any state it returns that state unchanged (no
side effects), and the declared targets do not depend on the state at
all — two calls on arbitrary states agree.  For `Denoise` the declared
paths are moreover spelled out as functions of the configured output
root, witnessing that they are computable from configuration alone. -/
theorem c7_outputs_pure (c : Config) (s t : RunState) :
    ((Import_Data.output c s).1 = s ∧ (Import_Data.output c s).2 = (Import_Data.output c t).2)
  ∧ ((Summarize.output c s).1 = s ∧ (Summarize.output c s).2 = (Summarize.output c t).2)
  ∧ ((Denoise.output c s).1 = s ∧ (Denoise.output c s).2 = (Denoise.output c t).2)
  ∧ ((Denoise_Tabulate.output c s).1 = s
      ∧ (Denoise_Tabulate.output c s).2 = (Denoise_Tabulate.output c t).2)
  ∧ ((Taxonomic_Classification.output c s).1 = s
      ∧ (Taxonomic_Classification.output c s).2 = (Taxonomic_Classification.output c t).2)
  ∧ ((Taxonomy_Tabulate.output c s).1 = s
      ∧ (Taxonomy_Tabulate.output c s).2 = (Taxonomy_Tabulate.output c t).2)
  ∧ ((Export_Feature_Table.output c s).1 = s
      ∧ (Export_Feature_Table.output c s).2 = (Export_Feature_Table.output c t).2)
  ∧ ((Export_Taxonomy.output c s).1 = s
      ∧ (Export_Taxonomy.output c s).2 = (Export_Taxonomy.output c t).2)
  ∧ ((Export_Representative_Seqs.output c s).1 = s
      ∧ (Export_Representative_Seqs.output c s).2 = (Export_Representative_Seqs.output c t).2)
  ∧ ((Convert_Biom_to_TSV.output c s).1 = s
      ∧ (Convert_Biom_to_TSV.output c s).2 = (Convert_Biom_to_TSV.output c t).2)
  ∧ ((Generate_Combined_Feature_Table.output c s).1 = s
      ∧ (Generate_Combined_Feature_Table.output c s).2
          = (Generate_Combined_Feature_Table.output c t).2)
  ∧ (Denoise.output c s).2.table.path = pathJoin (pathJoin c.out_dir "dada2") "dada2-table.qza"
  ∧ (Denoise.output c s).2.rep_seqs.path
      = pathJoin (pathJoin c.out_dir "dada2") "dada2-rep-seqs.qza"
  ∧ (Denoise.output c s).2.stats.path = pathJoin (pathJoin c.out_dir "dada2") "stats-dada2.qza"
  ∧ (Denoise.output c s).2.log.path = pathJoin (pathJoin c.out_dir "dada2") "dada2_log.txt" :=
  ⟨⟨rfl, rfl⟩, ⟨rfl, rfl⟩, ⟨rfl, rfl⟩, ⟨rfl, rfl⟩, ⟨rfl, rfl⟩, ⟨rfl, rfl⟩, ⟨rfl, rfl⟩,
    ⟨rfl, rfl⟩, ⟨rfl, rfl⟩, ⟨rfl, rfl⟩, ⟨rfl, rfl⟩, rfl, rfl, rfl, rfl⟩

/-! ## Claim C9 (log artifacts are written only after command success) -/

/-- C9.  For the three log-producing tasks (`Denoise`,
`Taxonomic_Classification`, `Generate_Combined_Feature_Table`): if the
run does not end in a normal return — the main command exited nonzero
(`sys.exit(1)` from `run_cmd`) or could not be launched (re-raised), or
already the mkdir failed — then the filesystem is untouched, so no log
artifact is created; when both commands succeed the only write is the
log target, which receives exactly the captured stdout of the main
command, after it returned. -/
theorem c9_log_write_only_after_success (c : Config) (w : World) (s : RunState) :
    (((Denoise.run c w s).2 ≠ .ok () → (Denoise.run c w s).1.fs = s.fs)
      ∧ ∀ o1 e1 o2 e2,
          w ["mkdir", "-p", Output_Dirs.denoise_dir c] = .completed 0 o1 e1 →
          w (Denoise.cmd c) = .completed 0 o2 e2 →
          Denoise.run c w s =
            ({ s with
                fs := FS.write s.fs (Denoise.logPath c) o2,
                invoked := s.invoked
                  ++ [["mkdir", "-p", Output_Dirs.denoise_dir c], Denoise.cmd c] }, .ok ()))
  ∧ (((Taxonomic_Classification.run c w s).2 ≠ .ok () →
          (Taxonomic_Classification.run c w s).1.fs = s.fs)
      ∧ ∀ o1 e1 o2 e2,
          w ["mkdir", "-p", Output_Dirs.taxonomy_dir c] = .completed 0 o1 e1 →
          w (Taxonomic_Classification.cmd c) = .completed 0 o2 e2 →
          Taxonomic_Classification.run c w s =
            ({ s with
                fs := FS.write s.fs (Taxonomic_Classification.logPath c) o2,
                invoked := s.invoked
                  ++ [["mkdir", "-p", Output_Dirs.taxonomy_dir c],
                      Taxonomic_Classification.cmd c] }, .ok ()))
  ∧ (((Generate_Combined_Feature_Table.run c w s).2 ≠ .ok () →
          (Generate_Combined_Feature_Table.run c w s).1.fs = s.fs)
      ∧ ∀ o1 e1 o2 e2,
          w ["mkdir", "-p", Output_Dirs.export_dir c] = .completed 0 o1 e1 →
          w (Generate_Combined_Feature_Table.cmd c) = .completed 0 o2 e2 →
          Generate_Combined_Feature_Table.run c w s =
            ({ s with
                fs := FS.write s.fs (Generate_Combined_Feature_Table.logPath c) o2,
                invoked := s.invoked
                  ++ [["mkdir", "-p", Output_Dirs.export_dir c],
                      Generate_Combined_Feature_Table.cmd c] }, .ok ())) := by
  refine ⟨⟨fun h => logTask_fail_fs _ _ _ _ w s h, fun o1 e1 o2 e2 h1 h2 => ?_⟩,
          ⟨fun h => logTask_fail_fs _ _ _ _ w s h, fun o1 e1 o2 e2 h1 h2 => ?_⟩,
          ⟨fun h => logTask_fail_fs _ _ _ _ w s h, fun o1 e1 o2 e2 h1 h2 => ?_⟩⟩
  · exact logTask_ok _ _ _ _ w s o1 e1 o2 e2 h1 h2
  · exact logTask_ok _ _ _ _ w s o1 e1 o2 e2 h1 h2
  · exact logTask_ok _ _ _ _ w s o1 e1 o2 e2 h1 h2

/-- C9 (witness): with a failing dada2 command, `Denoise.run` ends in
`sys.exit(1)` and the filesystem (hence the log target) is untouched. -/
theorem c9_log_write_only_after_success_witness :
    (Denoise.run cDemo wMainFails st0).2 ≠ .ok ()
      ∧ (Denoise.run cDemo wMainFails st0).1.fs = st0.fs := by
  refine ⟨by decide, (c9_log_write_only_after_success cDemo wMainFails st0).1.1 (by decide)⟩

/-! ## Claim C10 (only Import_Data validates an externally supplied
input path) -/

/-- C10.  Part 1: `Import_Data.run` checks the manifest before building
its command — with the manifest absent it logs the missing-input message
and exits 1, and the only command attempted is the mkdir (the qiime
importing command is never invoked).  Part 2: `Taxonomic_Classification`
performs no such check — whatever the filesystem says about the
classifier path, the classify command is invoked, and when it exits
nonzero the result is the generic external-command failure path of
`run_cmd` (step-naming log message, `sys.exit(1)`), not a missing-input
message.  Part 3: every other task's run procedure likewise never
inspects the filesystem before its command: its outcome, log and invoked
commands are identical on any two filesystems (the manifest and the
classifier are the only externally supplied input paths in the
pipeline). -/
theorem c10_only_import_validates_input :
    (∀ (c : Config) (w : World) (s : RunState) (o1 e1 : String),
        w ["mkdir", "-p", c.out_dir] = .completed 0 o1 e1 →
        FS.lookup s.fs c.manifest_file = none →
        Import_Data.run c w s =
          ({ s with
              invoked := s.invoked ++ [["mkdir", "-p", c.out_dir]],
              log := s.log ++ ["Input file for qiime tools import does not exist..."] },
            .exit 1))
  ∧ (∀ (c : Config) (w : World) (s : RunState) (o1 e1 : String) (k : Nat) (o2 e2 : String),
        w ["mkdir", "-p", Output_Dirs.taxonomy_dir c] = .completed 0 o1 e1 →
        w (Taxonomic_Classification.cmd c) = .completed k o2 e2 → k ≠ 0 →
        Taxonomic_Classification.run c w s =
          ({ s with
              invoked := s.invoked
                ++ [["mkdir", "-p", Output_Dirs.taxonomy_dir c],
                    Taxonomic_Classification.cmd c],
              log := s.log ++ ["In " ++ Taxonomic_Classification.step c
                ++ " following error occured\n"
                ++ PyError.str (.calledProcessError (Taxonomic_Classification.cmd c) k o2 none)] },
            .exit 1))
  ∧ (∀ (c : Config) (w : World) (f1 f2 : FS) (lg : List String) (inv : List (List String)),
        ((Summarize.run c w ⟨f1, lg, inv⟩).2 = (Summarize.run c w ⟨f2, lg, inv⟩).2
          ∧ (Summarize.run c w ⟨f1, lg, inv⟩).1.invoked
              = (Summarize.run c w ⟨f2, lg, inv⟩).1.invoked)
      ∧ ((Denoise.run c w ⟨f1, lg, inv⟩).2 = (Denoise.run c w ⟨f2, lg, inv⟩).2
          ∧ (Denoise.run c w ⟨f1, lg, inv⟩).1.invoked
              = (Denoise.run c w ⟨f2, lg, inv⟩).1.invoked)
      ∧ ((Denoise_Tabulate.run c w ⟨f1, lg, inv⟩).2 = (Denoise_Tabulate.run c w ⟨f2, lg, inv⟩).2
          ∧ (Denoise_Tabulate.run c w ⟨f1, lg, inv⟩).1.invoked
              = (Denoise_Tabulate.run c w ⟨f2, lg, inv⟩).1.invoked)
      ∧ ((Taxonomic_Classification.run c w ⟨f1, lg, inv⟩).2
              = (Taxonomic_Classification.run c w ⟨f2, lg, inv⟩).2
          ∧ (Taxonomic_Classification.run c w ⟨f1, lg, inv⟩).1.invoked
              = (Taxonomic_Classification.run c w ⟨f2, lg, inv⟩).1.invoked)
      ∧ ((Taxonomy_Tabulate.run c w ⟨f1, lg, inv⟩).2 = (Taxonomy_Tabulate.run c w ⟨f2, lg, inv⟩).2
          ∧ (Taxonomy_Tabulate.run c w ⟨f1, lg, inv⟩).1.invoked
              = (Taxonomy_Tabulate.run c w ⟨f2, lg, inv⟩).1.invoked)
      ∧ ((Export_Feature_Table.run c w ⟨f1, lg, inv⟩).2
              = (Export_Feature_Table.run c w ⟨f2, lg, inv⟩).2
          ∧ (Export_Feature_Table.run c w ⟨f1, lg, inv⟩).1.invoked
              = (Export_Feature_Table.run c w ⟨f2, lg, inv⟩).1.invoked)
      ∧ ((Export_Taxonomy.run c w ⟨f1, lg, inv⟩).2 = (Export_Taxonomy.run c w ⟨f2, lg, inv⟩).2
          ∧ (Export_Taxonomy.run c w ⟨f1, lg, inv⟩).1.invoked
              = (Export_Taxonomy.run c w ⟨f2, lg, inv⟩).1.invoked)
      ∧ ((Export_Representative_Seqs.run c w ⟨f1, lg, inv⟩).2
              = (Export_Representative_Seqs.run c w ⟨f2, lg, inv⟩).2
          ∧ (Export_Representative_Seqs.run c w ⟨f1, lg, inv⟩).1.invoked
              = (Export_Representative_Seqs.run c w ⟨f2, lg, inv⟩).1.invoked)
      ∧ ((Convert_Biom_to_TSV.run c w ⟨f1, lg, inv⟩).2
              = (Convert_Biom_to_TSV.run c w ⟨f2, lg, inv⟩).2
          ∧ (Convert_Biom_to_TSV.run c w ⟨f1, lg, inv⟩).1.invoked
              = (Convert_Biom_to_TSV.run c w ⟨f2, lg, inv⟩).1.invoked)
      ∧ ((Generate_Combined_Feature_Table.run c w ⟨f1, lg, inv⟩).2
              = (Generate_Combined_Feature_Table.run c w ⟨f2, lg, inv⟩).2
          ∧ (Generate_Combined_Feature_Table.run c w ⟨f1, lg, inv⟩).1.invoked
              = (Generate_Combined_Feature_Table.run c w ⟨f2, lg, inv⟩).1.invoked)) := by
  refine ⟨fun c w s o1 e1 h1 h2 => ?_, fun c w s o1 e1 k o2 e2 h1 h2 hk => ?_,
    fun c w f1 f2 lg inv => ?_⟩
  · simp [Import_Data.run, bindRun, runCmd, check_output, h1, h2]
  · exact logTask_mainFail _ _ _ _ w s o1 e1 k o2 e2 h1 h2 hk
  · exact
      ⟨⟨(simpleTask_fs_indep _ _ _ w f1 f2 lg inv).1,
        (simpleTask_fs_indep _ _ _ w f1 f2 lg inv).2.2⟩,
       ⟨(logTask_fs_indep _ _ _ _ w f1 f2 lg inv).1,
        (logTask_fs_indep _ _ _ _ w f1 f2 lg inv).2.2⟩,
       ⟨(simpleTask_fs_indep _ _ _ w f1 f2 lg inv).1,
        (simpleTask_fs_indep _ _ _ w f1 f2 lg inv).2.2⟩,
       ⟨(logTask_fs_indep _ _ _ _ w f1 f2 lg inv).1,
        (logTask_fs_indep _ _ _ _ w f1 f2 lg inv).2.2⟩,
       ⟨(simpleTask_fs_indep _ _ _ w f1 f2 lg inv).1,
        (simpleTask_fs_indep _ _ _ w f1 f2 lg inv).2.2⟩,
       ⟨(simpleTask_fs_indep _ _ _ w f1 f2 lg inv).1,
        (simpleTask_fs_indep _ _ _ w f1 f2 lg inv).2.2⟩,
       ⟨(simpleTask_fs_indep _ _ _ w f1 f2 lg inv).1,
        (simpleTask_fs_indep _ _ _ w f1 f2 lg inv).2.2⟩,
       ⟨(simpleTask_fs_indep _ _ _ w f1 f2 lg inv).1,
        (simpleTask_fs_indep _ _ _ w f1 f2 lg inv).2.2⟩,
       ⟨(simpleTask_fs_indep _ _ _ w f1 f2 lg inv).1,
        (simpleTask_fs_indep _ _ _ w f1 f2 lg inv).2.2⟩,
       ⟨(logTask_fs_indep _ _ _ _ w f1 f2 lg inv).1,
        (logTask_fs_indep _ _ _ _ w f1 f2 lg inv).2.2⟩⟩

/-- C10 (witness): with an absent manifest, `Import_Data` exits 1 having
attempted only the mkdir; with an absent classifier file,
`Taxonomic_Classification` still invokes its command, whose nonzero exit
surfaces as the generic external-command failure. -/
theorem c10_only_import_validates_input_witness :
    Import_Data.run cDemo wOk st0 =
      ({ st0 with
          invoked := st0.invoked ++ [["mkdir", "-p", cDemo.out_dir]],
          log := st0.log ++ ["Input file for qiime tools import does not exist..."] },
        .exit 1)
  ∧ Taxonomic_Classification.run cDemo wMainFails st0 =
      ({ st0 with
          invoked := st0.invoked
            ++ [["mkdir", "-p", Output_Dirs.taxonomy_dir cDemo],
                Taxonomic_Classification.cmd cDemo],
          log := st0.log ++ ["In " ++ Taxonomic_Classification.step cDemo
            ++ " following error occured\n"
            ++ PyError.str
                (.calledProcessError (Taxonomic_Classification.cmd cDemo) 1 "" none)] },
        .exit 1) :=
  ⟨c10_only_import_validates_input.1 cDemo wOk st0 "" "" rfl rfl,
   c10_only_import_validates_input.2.1 cDemo wMainFails st0 "" "" 1 "" "" rfl rfl (by decide)⟩

/-! ## Claim C2 (overall exit codes and what is logged first) -/

/-- C2 (counterexample).  The claim says that on a missing-input
condition the process exits 1 after logging the failing stage and the
captured error text.  Concretely, with the manifest absent,
`Import_Data.run` does exit 1, but the single message it logs is the
fixed string `Input file for qiime tools import does not exist...`,
which contains neither the failing task's identity string nor the text
of the underlying `FileNotFoundError`. -/
theorem c2_missing_input_log_counterexample :
    (Import_Data.run cDemo wOk st0).2 = .exit 1
  ∧ (Import_Data.run cDemo wOk st0).1.log
      = ["Input file for qiime tools import does not exist..."]
  ∧ strContains "Input file for qiime tools import does not exist..."
      (Import_Data.step cDemo) = false
  ∧ strContains "Input file for qiime tools import does not exist..."
      (PyError.str (.fileNotFoundError cDemo.manifest_file)) = false := by
  refine ⟨by decide, by decide, by decide, by decide⟩

/-- C2 (amended).  The modelled pipeline driver exits 0 exactly when
resolution succeeds, and 1 on a failure.  An external-command failure
exits 1 after logging one message carrying the failing stage and the
`CalledProcessError` text.  A missing manifest exits 1 after logging
only the fixed missing-input message (which names the import step
generically but carries neither the task identity string nor the
underlying error text). -/
theorem c2_exit_codes :
    (∀ (g : Nat → Node) (fuel root : Nat) (st : SchedState),
        pipelineExitCode g fuel root st = 0 ↔ (resolve g fuel [] root st).2 = none)
  ∧ (∀ (cmd : List String) (step : String) (w : World) (s : RunState) (k : Nat) (o e : String),
        w cmd = .completed k o e → k ≠ 0 →
        runCmd cmd step w s =
          ({ s with
              invoked := s.invoked ++ [cmd],
              log := s.log ++ ["In " ++ step ++ " following error occured\n"
                ++ PyError.str (.calledProcessError cmd k o none)] }, .exit 1))
  ∧ (∀ (c : Config) (w : World) (s : RunState) (o1 e1 : String),
        w ["mkdir", "-p", c.out_dir] = .completed 0 o1 e1 →
        FS.lookup s.fs c.manifest_file = none →
        (Import_Data.run c w s).2 = .exit 1
          ∧ (Import_Data.run c w s).1.log
              = s.log ++ ["Input file for qiime tools import does not exist..."]) := by
  refine ⟨fun g fuel root st => ?_, fun cmd step w s k o e hw hk => ?_,
    fun c w s o1 e1 h1 h2 => ?_⟩
  · cases h : (resolve g fuel [] root st).2 <;> simp [pipelineExitCode, h]
  · simp [runCmd, check_output, hw, hk]
  · constructor <;> simp [Import_Data.run, bindRun, runCmd, check_output, h1, h2]

/-- C2 (witness): the three branches of the amended statement at
concrete inputs — a trivially succeeding graph exits 0, a failing
command exits 1 with the step-naming message, a missing manifest exits 1
with the fixed message. -/
theorem c2_exit_codes_witness :
    pipelineExitCode gOne 1 0 ⟨[], [], []⟩ = 0
  ∧ runCmd ["ls"] "st" (fun _ => .completed 4 "o" "e") st0 =
      ({ st0 with
          invoked := st0.invoked ++ [["ls"]],
          log := st0.log ++ ["In st following error occured\n"
            ++ PyError.str (.calledProcessError ["ls"] 4 "o" none)] }, .exit 1)
  ∧ (Import_Data.run cDemo wOk st0).2 = .exit 1 := by
  refine ⟨(c2_exit_codes.1 gOne 1 0 ⟨[], [], []⟩).mpr (by decide),
    c2_exit_codes.2.1 ["ls"] "st" _ st0 4 "o" "e" rfl (by decide),
    (c2_exit_codes.2.2 cDemo wOk st0 "" "" rfl rfl).1⟩

/-! ## Scheduler infrastructure lemmas -/

theorem FS.lookup_append (l l2 : FS) (p : String) (fi : FileInfo)
    (h : FS.lookup l p = some fi) : FS.lookup (l ++ l2) p = some fi := by
  induction l with
  | nil => simp [FS.lookup] at h
  | cons q rest ih =>
    rcases q with ⟨q1, f1⟩
    by_cases hq : q1 = p
    · simp [FS.lookup, hq] at h ⊢
      exact h
    · simp [FS.lookup, hq] at h ⊢
      exact ih h

theorem targetExists_of_lookup_mono (fs fs' : FS)
    (hmono : ∀ p fi, FS.lookup fs p = some fi → FS.lookup fs' p = some fi)
    (p : String) (h : targetExists fs p = true) : targetExists fs' p = true := by
  unfold targetExists at h ⊢
  rcases hl : FS.lookup fs p with _ | fi
  · rw [hl] at h
    simp at h
  · rw [hl] at h
    rw [hmono p fi hl]
    exact h

theorem complete_of_lookup_mono (g : Nat → Node) (fs fs' : FS)
    (hmono : ∀ p fi, FS.lookup fs p = some fi → FS.lookup fs' p = some fi)
    (n : Nat) (h : complete g fs n = true) : complete g fs' n = true := by
  unfold complete at h ⊢
  rw [List.all_eq_true] at h ⊢
  intro p hp
  exact targetExists_of_lookup_mono fs fs' hmono p (h p hp)

theorem seqFold_inv (f : Nat → SchedState → SchedState × Option Fail)
    (P : SchedState → Prop) (hf : ∀ d t, P t → P (f d t).1) :
    ∀ (ds : List Nat) (s : SchedState), P s → P (seqFold f ds s).1 := by
  intro ds
  induction ds with
  | nil => intro s h; simpa [seqFold] using h
  | cons d ds ih =>
    intro s h
    have hstep := hf d s h
    rcases hfd : f d s with ⟨s1, o⟩
    rw [hfd] at hstep
    cases o with
    | none => simpa [seqFold, hfd] using ih s1 hstep
    | some e => simpa [seqFold, hfd] using hstep

theorem resolve_mono (g : Nat → Node) :
    ∀ (fuel : Nat) (v : List Nat) (n : Nat) (s : SchedState),
      s.resolved ⊆ (resolve g fuel v n s).1.resolved
        ∧ s.ran ⊆ (resolve g fuel v n s).1.ran
        ∧ ∀ p fi, FS.lookup s.fs p = some fi
            → FS.lookup (resolve g fuel v n s).1.fs p = some fi := by
  intro fuel
  induction fuel with
  | zero =>
    intro v n s
    simp [resolve, List.Subset.refl]
  | succ fuel ih =>
    intro v n s
    by_cases h1 : n ∈ s.resolved
    · simp [resolve, h1, List.Subset.refl]
    · by_cases h2 : n ∈ v
      · simp [resolve, h1, h2, List.Subset.refl]
      · have hfold :
            s.resolved ⊆ (seqFold (fun d t => resolve g fuel (n :: v) d t) (g n).deps s).1.resolved
              ∧ s.ran ⊆ (seqFold (fun d t => resolve g fuel (n :: v) d t) (g n).deps s).1.ran
              ∧ ∀ p fi, FS.lookup s.fs p = some fi →
                  FS.lookup (seqFold (fun d t => resolve g fuel (n :: v) d t) (g n).deps s).1.fs p
                    = some fi := by
          refine seqFold_inv _
            (fun t => s.resolved ⊆ t.resolved ∧ s.ran ⊆ t.ran
              ∧ ∀ p fi, FS.lookup s.fs p = some fi → FS.lookup t.fs p = some fi)
            (fun d t ht => ?_) (g n).deps s
            ⟨List.Subset.refl _, List.Subset.refl _, fun _ _ h => h⟩
          rcases ht with ⟨ha, hb, hc⟩
          rcases ih (n :: v) d t with ⟨ha2, hb2, hc2⟩
          exact ⟨ha.trans ha2, hb.trans hb2, fun p fi h => hc2 p fi (hc p fi h)⟩
        rcases hF : seqFold (fun d t => resolve g fuel (n :: v) d t) (g n).deps s with ⟨s1, o⟩
        rw [hF] at hfold
        rcases hfold with ⟨ha, hb, hc⟩
        cases o with
        | some e => simp [resolve, h1, h2, hF]; exact ⟨ha, hb, hc⟩
        | none =>
          by_cases hcmp : complete g s1.fs n = true
          · simp [resolve, h1, h2, hF, hcmp]
            exact ⟨ha.trans (List.subset_append_left _ _), hb, hc⟩
          · simp only [resolve, h1, h2, hF, hcmp]
            simp only [if_neg h1, if_neg h2, Bool.not_eq_true] at *
            rcases hrb : (g n).runB with ws | code
            · by_cases hcmp2 : complete g (s1.fs ++ ws) n = true
              · simp [runNode, hrb, hcmp, hcmp2]
                exact ⟨ha.trans (List.subset_append_left _ _),
                  hb.trans (List.subset_append_left _ _),
                  fun p fi h => FS.lookup_append _ _ _ _ (hc p fi h)⟩
              · simp [runNode, hrb, hcmp, hcmp2]
                exact ⟨ha, hb.trans (List.subset_append_left _ _),
                  fun p fi h => FS.lookup_append _ _ _ _ (hc p fi h)⟩
            · simp [runNode, hrb, hcmp]
              exact ⟨ha, hb.trans (List.subset_append_left _ _), hc⟩

theorem resolve_skips_complete (g : Nat → Node) (m : Nat) :
    ∀ (fuel : Nat) (v : List Nat) (n : Nat) (s : SchedState),
      complete g s.fs m = true → m ∉ s.ran → m ∉ (resolve g fuel v n s).1.ran := by
  intro fuel
  induction fuel with
  | zero =>
    intro v n s _ hm
    simpa [resolve] using hm
  | succ fuel ih =>
    intro v n s hcm hm
    by_cases h1 : n ∈ s.resolved
    · simpa [resolve, h1] using hm
    · by_cases h2 : n ∈ v
      · simpa [resolve, h1, h2] using hm
      · have hfold :
            (∀ p fi, FS.lookup s.fs p = some fi →
                FS.lookup (seqFold (fun d t => resolve g fuel (n :: v) d t) (g n).deps s).1.fs p
                  = some fi)
              ∧ m ∉ (seqFold (fun d t => resolve g fuel (n :: v) d t) (g n).deps s).1.ran := by
          refine seqFold_inv _
            (fun t => (∀ p fi, FS.lookup s.fs p = some fi → FS.lookup t.fs p = some fi)
              ∧ m ∉ t.ran)
            (fun d t ht => ?_) (g n).deps s ⟨fun _ _ h => h, hm⟩
          rcases ht with ⟨hc, hr⟩
          have hcmt : complete g t.fs m = true := complete_of_lookup_mono g s.fs t.fs hc m hcm
          refine ⟨fun p fi h => (resolve_mono g fuel (n :: v) d t).2.2 p fi (hc p fi h),
            ih (n :: v) d t hcmt hr⟩
        rcases hF : seqFold (fun d t => resolve g fuel (n :: v) d t) (g n).deps s with ⟨s1, o⟩
        rw [hF] at hfold
        rcases hfold with ⟨hc1, hr1⟩
        cases o with
        | some e => simpa [resolve, h1, h2, hF] using hr1
        | none =>
          by_cases hcmp : complete g s1.fs n = true
          · simpa [resolve, h1, h2, hF, hcmp] using hr1
          · have hnm : n ≠ m := by
              intro he
              exact hcmp (he ▸ complete_of_lookup_mono g s.fs s1.fs hc1 m hcm)
            rcases hrb : (g n).runB with ws | code
            · by_cases hcmp2 : complete g (s1.fs ++ ws) n = true
              · simp [resolve, h1, h2, hF, hcmp, runNode, hrb, hcmp2]
                exact ⟨hr1, fun he => hnm he.symm⟩
              · simp [resolve, h1, h2, hF, hcmp, runNode, hrb, hcmp2]
                exact ⟨hr1, fun he => hnm he.symm⟩
            · simp [resolve, h1, h2, hF, hcmp, runNode, hrb]
              exact ⟨hr1, fun he => hnm he.symm⟩

/-! ## Claim C1 (already-complete nodes are never run) -/

/-- C1.  If every artifact declared by node `n` already exists in the
filesystem when resolution begins, then `n`'s run procedure is never
invoked during that resolution: the filesystem only grows during a run,
so `n` is still complete whenever the resolver reaches it and the
skip branch is taken. -/
theorem c1_complete_node_never_run (g : Nat → Node) (fuel root : Nat) (s : SchedState)
    (n : Nat) (hc : complete g s.fs n = true) (hr : n ∉ s.ran) :
    n ∉ (resolve g fuel [] root s).1.ran :=
  resolve_skips_complete g n fuel [] root s hc hr

/-- C1 (witness): node 0 declares artifact `a`, which already exists, so
resolving it invokes no run. -/
theorem c1_complete_node_never_run_witness :
    complete gOut fsA 0 = true
      ∧ 0 ∉ (resolve gOut 2 [] 0 ⟨fsA, [], []⟩).1.ran :=
  ⟨by decide, c1_complete_node_never_run gOut 2 0 ⟨fsA, [], []⟩ 0 (by decide) (by decide)⟩

theorem resolve_none_ran_complete (g : Nat → Node) :
    ∀ (fuel : Nat) (v : List Nat) (n : Nat) (s : SchedState),
      (resolve g fuel v n s).2 = none →
      ∀ m, m ∈ (resolve g fuel v n s).1.ran →
        m ∈ s.ran ∨ complete g (resolve g fuel v n s).1.fs m = true := by
  intro fuel
  induction fuel with
  | zero =>
    intro v n s h
    simp [resolve] at h
  | succ fuel ih =>
    intro v n s h m hm
    by_cases h1 : n ∈ s.resolved
    · rw [resolve] at hm
      simp [h1] at hm
      exact Or.inl hm
    · by_cases h2 : n ∈ v
      · rw [resolve] at h
        simp [h1, h2] at h
      · have FL : ∀ (ds : List Nat) (t s1 : SchedState),
            seqFold (fun d u => resolve g fuel (n :: v) d u) ds t = (s1, none) →
            ∀ m2, m2 ∈ s1.ran → m2 ∈ t.ran ∨ complete g s1.fs m2 = true := by
          intro ds
          induction ds with
          | nil =>
            intro t s1 hEq m2 hm2
            simp [seqFold] at hEq
            rw [hEq]
            exact Or.inl hm2
          | cons d ds ihds =>
            intro t s1 hEq m2 hm2
            rcases hfd : resolve g fuel (n :: v) d t with ⟨u, o⟩
            cases o with
            | some e => simp [seqFold, hfd] at hEq
            | none =>
              simp only [seqFold, hfd] at hEq
              rcases ihds u s1 hEq m2 hm2 with hmu | hcomp
              · have helem := ih (n :: v) d t (by rw [hfd]) m2
                rw [hfd] at helem
                rcases helem hmu with hmt | hcu
                · exact Or.inl hmt
                · refine Or.inr (complete_of_lookup_mono g u.fs s1.fs (fun p fi hl => ?_) m2 hcu)
                  have hmono := seqFold_inv (fun d u => resolve g fuel (n :: v) d u)
                    (fun x => ∀ p fi, FS.lookup u.fs p = some fi → FS.lookup x.fs p = some fi)
                    (fun d x hx p fi hl2 =>
                      (resolve_mono g fuel (n :: v) d x).2.2 p fi (hx p fi hl2))
                    ds u (fun _ _ hl2 => hl2)
                  rw [hEq] at hmono
                  exact hmono p fi hl
              · exact Or.inr hcomp
        rcases hF : seqFold (fun d u => resolve g fuel (n :: v) d u) (g n).deps s with ⟨s1, o⟩
        cases o with
        | some e =>
          rw [resolve] at h
          simp [h1, h2, hF] at h
        | none =>
          by_cases hcmp : complete g s1.fs n = true
          · rw [resolve] at hm h ⊢
            simp only [h1, h2, hF, hcmp, if_neg h1, if_neg h2, if_pos hcmp] at hm h ⊢
            simp at hm ⊢
            exact FL (g n).deps s s1 hF m hm
          · rcases hrb : (g n).runB with ws | code
            · by_cases hcmp2 : complete g (s1.fs ++ ws) n = true
              · rw [resolve] at hm ⊢
                simp only [if_neg h1, if_neg h2, hF, hcmp, if_false, runNode, hrb,
                  if_pos hcmp2] at hm ⊢
                simp at hm ⊢
                rcases hm with hm | hm
                · rcases FL (g n).deps s s1 hF m hm with hl | hr
                  · exact Or.inl hl
                  · exact Or.inr (complete_of_lookup_mono g s1.fs (s1.fs ++ ws)
                      (fun p fi hl2 => FS.lookup_append _ _ _ _ hl2) m hr)
                · exact Or.inr (hm ▸ hcmp2)
              · rw [resolve] at h
                simp [h1, h2, hF, hcmp, runNode, hrb, hcmp2] at h
            · rw [resolve] at h
              simp [h1, h2, hF, hcmp, runNode, hrb] at h

/-! ## Claim C4 (a run that returns without producing its outputs fails
with IncompleteOutput) -/

/-- C4.  Part 1: when a node's run completes without error (`succeeds`)
but a declared output is still missing at the post-run re-check, the
step fails with `incompleteOutput` naming the node; since every failure
aborts resolution immediately, that failure is the result of the whole
resolution.  Part 2, the complement: whenever resolution returns
success, every node whose run was invoked during it is complete in the
final filesystem — an incomplete run can never be part of a successful
resolution. -/
theorem c4_incomplete_output_fails :
    (∀ (g : Nat → Node) (n : Nat) (s : SchedState) (ws : List (String × FileInfo)),
        (g n).runB = .succeeds ws → complete g (s.fs ++ ws) n = false →
        runNode g n s =
          ({ s with ran := s.ran ++ [n], fs := s.fs ++ ws }, some (.incompleteOutput n)))
  ∧ (∀ (g : Nat → Node) (fuel : Nat) (v : List Nat) (root : Nat) (s : SchedState),
        (resolve g fuel v root s).2 = none →
        ∀ m, m ∈ (resolve g fuel v root s).1.ran →
          m ∈ s.ran ∨ complete g (resolve g fuel v root s).1.fs m = true) := by
  constructor
  · intro g n s ws hrb hc
    simp [runNode, hrb, hc]
  · exact fun g fuel v root s h m hm => resolve_none_ran_complete g fuel v root s h m hm

/-- C4 (witness): node 0 of `gOut` declares `a` but writes nothing — its
run step fails with `incompleteOutput 0`; and in the successful
resolution of `gWrite` the node that ran is complete afterwards. -/
theorem c4_incomplete_output_fails_witness :
    runNode gOut 0 ⟨[], [], []⟩ = (⟨[], [], [0]⟩, some (.incompleteOutput 0))
      ∧ (0 ∈ (⟨[], [], []⟩ : SchedState).ran
          ∨ complete gWrite (resolve gWrite 1 [] 0 ⟨[], [], []⟩).1.fs 0 = true) :=
  ⟨c4_incomplete_output_fails.1 gOut 0 ⟨[], [], []⟩ [] rfl (by decide),
   c4_incomplete_output_fails.2 gWrite 1 [] 0 ⟨[], [], []⟩ (by decide) 0 (by decide)⟩

theorem resolve_visiting_shield (g : Nat → Node) (x : Nat) :
    ∀ (fuel : Nat) (v : List Nat) (n : Nat) (s : SchedState),
      x ∈ v → x ∉ s.ran → x ∉ s.resolved →
      x ∉ (resolve g fuel v n s).1.ran ∧ x ∉ (resolve g fuel v n s).1.resolved := by
  intro fuel
  induction fuel with
  | zero =>
    intro v n s _ hr hres
    simp [resolve]
    exact ⟨hr, hres⟩
  | succ fuel ih =>
    intro v n s hv hr hres
    by_cases h1 : n ∈ s.resolved
    · simp [resolve, h1]
      exact ⟨hr, hres⟩
    · by_cases h2 : n ∈ v
      · simp [resolve, h1, h2]
        exact ⟨hr, hres⟩
      · have hnx : n ≠ x := fun he => h2 (he ▸ hv)
        have hfold :
            x ∉ (seqFold (fun d t => resolve g fuel (n :: v) d t) (g n).deps s).1.ran
              ∧ x ∉ (seqFold (fun d t => resolve g fuel (n :: v) d t) (g n).deps s).1.resolved :=
          seqFold_inv _ (fun t => x ∉ t.ran ∧ x ∉ t.resolved)
            (fun d t ht => ih (n :: v) d t (List.mem_cons_of_mem n hv) ht.1 ht.2)
            (g n).deps s ⟨hr, hres⟩
        rcases hF : seqFold (fun d t => resolve g fuel (n :: v) d t) (g n).deps s with ⟨s1, o⟩
        rw [hF] at hfold
        cases o with
        | some e =>
          simpa [resolve, h1, h2, hF] using hfold
        | none =>
          by_cases hcmp : complete g s1.fs n = true
          · simp [resolve, h1, h2, hF, hcmp]
            exact ⟨hfold.1, hfold.2, fun he => hnx he.symm⟩
          · rcases hrb : (g n).runB with ws | code
            · by_cases hcmp2 : complete g (s1.fs ++ ws) n = true
              · simp [resolve, h1, h2, hF, hcmp, runNode, hrb, hcmp2]
                exact ⟨⟨hfold.1, fun he => hnx he.symm⟩,
                  hfold.2, fun he => hnx he.symm⟩
              · simp [resolve, h1, h2, hF, hcmp, runNode, hrb, hcmp2]
                exact ⟨⟨hfold.1, fun he => hnx he.symm⟩, hfold.2⟩
            · simp [resolve, h1, h2, hF, hcmp, runNode, hrb]
              exact ⟨⟨hfold.1, fun he => hnx he.symm⟩, hfold.2⟩

theorem resolve_resolved_not_ran (g : Nat → Node) (x : Nat) :
    ∀ (fuel : Nat) (v : List Nat) (n : Nat) (s : SchedState),
      x ∈ s.resolved → x ∉ s.ran → x ∉ (resolve g fuel v n s).1.ran := by
  intro fuel
  induction fuel with
  | zero =>
    intro v n s _ hr
    simpa [resolve] using hr
  | succ fuel ih =>
    intro v n s hres hr
    by_cases h1 : n ∈ s.resolved
    · simpa [resolve, h1] using hr
    · by_cases h2 : n ∈ v
      · simpa [resolve, h1, h2] using hr
      · have hnx : n ≠ x := fun he => h1 (he ▸ hres)
        have hfold :
            x ∈ (seqFold (fun d t => resolve g fuel (n :: v) d t) (g n).deps s).1.resolved
              ∧ x ∉ (seqFold (fun d t => resolve g fuel (n :: v) d t) (g n).deps s).1.ran :=
          seqFold_inv _ (fun t => x ∈ t.resolved ∧ x ∉ t.ran)
            (fun d t ht => ⟨(resolve_mono g fuel (n :: v) d t).1 ht.1, ih (n :: v) d t ht.1 ht.2⟩)
            (g n).deps s ⟨hres, hr⟩
        rcases hF : seqFold (fun d t => resolve g fuel (n :: v) d t) (g n).deps s with ⟨s1, o⟩
        rw [hF] at hfold
        cases o with
        | some e => simpa [resolve, h1, h2, hF] using hfold.2
        | none =>
          by_cases hcmp : complete g s1.fs n = true
          · simpa [resolve, h1, h2, hF, hcmp] using hfold.2
          · rcases hrb : (g n).runB with ws | code
            · by_cases hcmp2 : complete g (s1.fs ++ ws) n = true
              · simp [resolve, h1, h2, hF, hcmp, runNode, hrb, hcmp2]
                exact ⟨hfold.2, fun he => hnx he.symm⟩
              · simp [resolve, h1, h2, hF, hcmp, runNode, hrb, hcmp2]
                exact ⟨hfold.2, fun he => hnx he.symm⟩
            · simp [resolve, h1, h2, hF, hcmp, runNode, hrb]
              exact ⟨hfold.2, fun he => hnx he.symm⟩

theorem resolve_cmdFail_aborts (g : Nat → Node) (x code : Nat)
    (hx : (g x).runB = .cmdFails code) :
    ∀ (fuel : Nat) (v : List Nat) (n : Nat) (s : SchedState),
      x ∉ s.ran → x ∉ s.resolved →
      x ∈ (resolve g fuel v n s).1.ran →
      (resolve g fuel v n s).2 = some (.externalCommandFailed x code)
        ∧ x ∉ (resolve g fuel v n s).1.resolved := by
  intro fuel
  induction fuel with
  | zero =>
    intro v n s hr _ hmem
    rw [resolve] at hmem
    exact absurd hmem hr
  | succ fuel ih =>
    intro v n s hr hres hmem
    by_cases h1 : n ∈ s.resolved
    · rw [resolve] at hmem
      simp [h1] at hmem
      exact absurd hmem hr
    · by_cases h2 : n ∈ v
      · rw [resolve] at hmem
        simp [h1, h2] at hmem
        exact absurd hmem hr
      · by_cases hnx : n = x
        · subst hnx
          have hfold :
              n ∉ (seqFold (fun d t => resolve g fuel (n :: v) d t) (g n).deps s).1.ran
                ∧ n ∉ (seqFold (fun d t => resolve g fuel (n :: v) d t) (g n).deps s).1.resolved :=
            seqFold_inv _ (fun t => n ∉ t.ran ∧ n ∉ t.resolved)
              (fun d t ht =>
                resolve_visiting_shield g n fuel (n :: v) d t (List.mem_cons_self n v) ht.1 ht.2)
              (g n).deps s ⟨hr, hres⟩
          rcases hF : seqFold (fun d t => resolve g fuel (n :: v) d t) (g n).deps s with ⟨s1, o⟩
          rw [hF] at hfold
          cases o with
          | some e =>
            have heq : resolve g (fuel + 1) v n s = (s1, some e) := by
              rw [resolve]; simp [h1, h2, hF]
            rw [heq] at hmem
            exact absurd hmem hfold.1
          | none =>
            by_cases hcmp : complete g s1.fs n = true
            · have heq : resolve g (fuel + 1) v n s
                  = ({ s1 with resolved := s1.resolved ++ [n] }, none) := by
                rw [resolve]; simp [h1, h2, hF, hcmp]
              rw [heq] at hmem
              exact absurd hmem hfold.1
            · have heq : resolve g (fuel + 1) v n s
                  = ({ s1 with ran := s1.ran ++ [n] },
                      some (.externalCommandFailed n code)) := by
                rw [resolve]; simp [h1, h2, hF, hcmp, runNode, hx]
              rw [heq]
              exact ⟨rfl, hfold.2⟩
        · have FL : ∀ (ds : List Nat) (t s1 : SchedState) (o : Option Fail),
              seqFold (fun d u => resolve g fuel (n :: v) d u) ds t = (s1, o) →
              x ∉ t.ran → x ∈ s1.ran →
              o = some (.externalCommandFailed x code) ∧ x ∉ s1.resolved := by
            intro ds
            induction ds with
            | nil =>
              intro t s1 o hEq ht hmem2
              simp [seqFold] at hEq
              rw [hEq.1] at ht
              exact absurd hmem2 ht
            | cons d ds ihds =>
              intro t s1 o hEq ht hmem2
              rcases hfd : resolve g fuel (n :: v) d t with ⟨u, o2⟩
              by_cases hxres : x ∈ t.resolved
              · have hinv := seqFold_inv (fun d u => resolve g fuel (n :: v) d u)
                  (fun y => x ∈ y.resolved ∧ x ∉ y.ran)
                  (fun d2 y hy => ⟨(resolve_mono g fuel (n :: v) d2 y).1 hy.1,
                    resolve_resolved_not_ran g x fuel (n :: v) d2 y hy.1 hy.2⟩)
                  (d :: ds) t ⟨hxres, ht⟩
                rw [hEq] at hinv
                exact absurd hmem2 hinv.2
              · cases o2 with
                | some e =>
                  simp only [seqFold, hfd] at hEq
                  have hu : u = s1 ∧ some e = o := by
                    constructor
                    · exact congrArg Prod.fst hEq
                    · exact congrArg Prod.snd hEq
                  rcases hu with ⟨rfl, ho⟩
                  have helem := ih (n :: v) d t ht hxres (by rw [hfd]; exact hmem2)
                  rw [hfd] at helem
                  exact ⟨ho ▸ helem.1, helem.2⟩
                | none =>
                  simp only [seqFold, hfd] at hEq
                  by_cases hxu : x ∈ u.ran
                  · have helem := ih (n :: v) d t ht hxres (by rw [hfd]; exact hxu)
                    rw [hfd] at helem
                    exact absurd helem.1 (by simp)
                  · by_cases hxures : x ∈ u.resolved
                    · have hinv := seqFold_inv (fun d u => resolve g fuel (n :: v) d u)
                        (fun y => x ∈ y.resolved ∧ x ∉ y.ran)
                        (fun d2 y hy => ⟨(resolve_mono g fuel (n :: v) d2 y).1 hy.1,
                          resolve_resolved_not_ran g x fuel (n :: v) d2 y hy.1 hy.2⟩)
                        ds u ⟨hxures, hxu⟩
                      rw [hEq] at hinv
                      exact absurd hmem2 hinv.2
                    · exact ihds u s1 o hEq hxu hmem2
          rcases hF : seqFold (fun d u => resolve g fuel (n :: v) d u) (g n).deps s with ⟨s1, o⟩
          cases o with
          | some e =>
            have heq : resolve g (fuel + 1) v n s = (s1, some e) := by
              rw [resolve]; simp [h1, h2, hF]
            rw [heq] at hmem ⊢
            have := FL (g n).deps s s1 (some e) hF hr hmem
            exact ⟨this.1, this.2⟩
          | none =>
            have hnotran : x ∉ s1.ran := by
              intro hxs1
              have := (FL (g n).deps s s1 none hF hr hxs1).1
              simp at this
            by_cases hcmp : complete g s1.fs n = true
            · have heq : resolve g (fuel + 1) v n s
                  = ({ s1 with resolved := s1.resolved ++ [n] }, none) := by
                rw [resolve]; simp [h1, h2, hF, hcmp]
              rw [heq] at hmem
              exact absurd hmem hnotran
            · rcases hrb : (g n).runB with ws | code2
              · by_cases hcmp2 : complete g (s1.fs ++ ws) n = true
                · have heq : resolve g (fuel + 1) v n s
                      = ({ s1 with fs := s1.fs ++ ws, ran := s1.ran ++ [n], resolved := s1.resolved ++ [n] }, none) := by
                    rw [resolve]; simp [h1, h2, hF, hcmp, runNode, hrb, hcmp2]
                  rw [heq] at hmem
                  simp at hmem
                  rcases hmem with hmem | hmem
                  · exact absurd hmem hnotran
                  · exact absurd hmem.symm hnx
                · have heq : resolve g (fuel + 1) v n s
                      = ({ s1 with fs := s1.fs ++ ws, ran := s1.ran ++ [n] }, some (.incompleteOutput n)) := by
                    rw [resolve]; simp [h1, h2, hF, hcmp, runNode, hrb, hcmp2]
                  rw [heq] at hmem
                  simp at hmem
                  rcases hmem with hmem | hmem
                  · exact absurd hmem hnotran
                  · exact absurd hmem.symm hnx
              · have heq : resolve g (fuel + 1) v n s
                    = ({ s1 with ran := s1.ran ++ [n] },
                        some (.externalCommandFailed n code2)) := by
                  rw [resolve]; simp [h1, h2, hF, hcmp, runNode, hrb]
                rw [heq] at hmem
                simp at hmem
                rcases hmem with hmem | hmem
                · exact absurd hmem hnotran
                · exact absurd hmem.symm hnx

theorem resolve_none_resolved (g : Nat → Node) (fuel : Nat) (v : List Nat) (n : Nat)
    (s : SchedState) (h : (resolve g fuel v n s).2 = none) :
    n ∈ (resolve g fuel v n s).1.resolved := by
  cases fuel with
  | zero => rw [resolve] at h; simp at h
  | succ fuel =>
    by_cases h1 : n ∈ s.resolved
    · have heq : resolve g (fuel + 1) v n s = (s, none) := by rw [resolve]; simp [h1]
      rw [heq]
      exact h1
    · by_cases h2 : n ∈ v
      · rw [resolve] at h
        simp [h1, h2] at h
      · rcases hF : seqFold (fun d u => resolve g fuel (n :: v) d u) (g n).deps s with ⟨s1, o⟩
        cases o with
        | some e =>
          rw [resolve] at h
          simp [h1, h2, hF] at h
        | none =>
          by_cases hcmp : complete g s1.fs n = true
          · have heq : resolve g (fuel + 1) v n s
                = ({ s1 with resolved := s1.resolved ++ [n] }, none) := by
              rw [resolve]; simp [h1, h2, hF, hcmp]
            rw [heq]
            simp
          · rcases hrb : (g n).runB with ws | code2
            · by_cases hcmp2 : complete g (s1.fs ++ ws) n = true
              · have heq : resolve g (fuel + 1) v n s
                    = ({ s1 with fs := s1.fs ++ ws, ran := s1.ran ++ [n], resolved := s1.resolved ++ [n] }, none) := by
                  rw [resolve]; simp [h1, h2, hF, hcmp, runNode, hrb, hcmp2]
                rw [heq]
                simp
              · rw [resolve] at h
                simp [h1, h2, hF, hcmp, runNode, hrb, hcmp2] at h
            · rw [resolve] at h
              simp [h1, h2, hF, hcmp, runNode, hrb] at h

theorem seqFold_none_all_resolved (g : Nat → Node) (fuel : Nat) (v : List Nat) :
    ∀ (ds : List Nat) (s s1 : SchedState),
      seqFold (fun d u => resolve g fuel v d u) ds s = (s1, none) →
      ∀ d ∈ ds, d ∈ s1.resolved := by
  intro ds
  induction ds with
  | nil => intro s s1 h d hd; simp at hd
  | cons d0 ds ih =>
    intro s s1 h d hd
    rcases hfd : resolve g fuel v d0 s with ⟨u, o⟩
    cases o with
    | some e => simp [seqFold, hfd] at h
    | none =>
      simp only [seqFold, hfd] at h
      rcases List.mem_cons.mp hd with rfl | hd2
      · have h0 : d ∈ u.resolved := by
          have h3 := resolve_none_resolved g fuel v d s (by rw [hfd])
          rw [hfd] at h3
          exact h3
        have hmono := seqFold_inv (fun d u => resolve g fuel v d u) (fun y => d ∈ y.resolved)
          (fun d2 y hy => (resolve_mono g fuel v d2 y).1 hy) ds u h0
        rw [h] at hmono
        exact hmono
      · exact ih u s1 h d hd2

theorem resolve_deps_closed (g : Nat → Node) :
    ∀ (fuel : Nat) (v : List Nat) (n : Nat) (s : SchedState),
      (∀ m, (m ∈ s.ran ∨ m ∈ s.resolved) → ∀ d ∈ (g m).deps, d ∈ s.resolved) →
      ∀ m, (m ∈ (resolve g fuel v n s).1.ran ∨ m ∈ (resolve g fuel v n s).1.resolved) →
        ∀ d ∈ (g m).deps, d ∈ (resolve g fuel v n s).1.resolved := by
  intro fuel
  induction fuel with
  | zero =>
    intro v n s hD
    rw [resolve]
    exact hD
  | succ fuel ih =>
    intro v n s hD
    by_cases h1 : n ∈ s.resolved
    · have heq : resolve g (fuel + 1) v n s = (s, none) := by rw [resolve]; simp [h1]
      rw [heq]
      exact hD
    · by_cases h2 : n ∈ v
      · have heq : resolve g (fuel + 1) v n s = (s, some (.cyclicDependency n)) := by
          rw [resolve]; simp [h1, h2]
        rw [heq]
        exact hD
      · have hfoldD :=
          seqFold_inv (fun d t => resolve g fuel (n :: v) d t)
            (fun t => ∀ m, (m ∈ t.ran ∨ m ∈ t.resolved) → ∀ d ∈ (g m).deps, d ∈ t.resolved)
            (fun d t ht => ih (n :: v) d t ht) (g n).deps s hD
        rcases hF : seqFold (fun d t => resolve g fuel (n :: v) d t) (g n).deps s with ⟨s1, o⟩
        rw [hF] at hfoldD
        cases o with
        | some e =>
          have heq : resolve g (fuel + 1) v n s = (s1, some e) := by
            rw [resolve]; simp [h1, h2, hF]
          rw [heq]
          exact hfoldD
        | none =>
          have hdeps : ∀ d ∈ (g n).deps, d ∈ s1.resolved :=
            seqFold_none_all_resolved g fuel (n :: v) (g n).deps s s1 hF
          by_cases hcmp : complete g s1.fs n = true
          · have heq : resolve g (fuel + 1) v n s
                = ({ s1 with resolved := s1.resolved ++ [n] }, none) := by
              rw [resolve]; simp [h1, h2, hF, hcmp]
            rw [heq]
            intro m hm d hd
            simp only [List.mem_append, List.mem_singleton] at hm ⊢
            rcases hm with hm | hm | hm
            · exact Or.inl (hfoldD m (Or.inl hm) d hd)
            · exact Or.inl (hfoldD m (Or.inr hm) d hd)
            · exact Or.inl (hdeps d (hm ▸ hd))
          · rcases hrb : (g n).runB with ws | code2
            · by_cases hcmp2 : complete g (s1.fs ++ ws) n = true
              · have heq : resolve g (fuel + 1) v n s
                    = ({ s1 with fs := s1.fs ++ ws, ran := s1.ran ++ [n], resolved := s1.resolved ++ [n] }, none) := by
                  rw [resolve]; simp [h1, h2, hF, hcmp, runNode, hrb, hcmp2]
                rw [heq]
                intro m hm d hd
                simp only [List.mem_append, List.mem_singleton] at hm ⊢
                rcases hm with (hm | hm) | (hm | hm)
                · exact Or.inl (hfoldD m (Or.inl hm) d hd)
                · exact Or.inl (hdeps d (hm ▸ hd))
                · exact Or.inl (hfoldD m (Or.inr hm) d hd)
                · exact Or.inl (hdeps d (hm ▸ hd))
              · have heq : resolve g (fuel + 1) v n s
                    = ({ s1 with fs := s1.fs ++ ws, ran := s1.ran ++ [n] }, some (.incompleteOutput n)) := by
                  rw [resolve]; simp [h1, h2, hF, hcmp, runNode, hrb, hcmp2]
                rw [heq]
                intro m hm d hd
                simp only [List.mem_append, List.mem_singleton] at hm
                rcases hm with (hm | hm) | hm
                · exact hfoldD m (Or.inl hm) d hd
                · exact hdeps d (hm ▸ hd)
                · exact hfoldD m (Or.inr hm) d hd
            · have heq : resolve g (fuel + 1) v n s
                  = ({ s1 with ran := s1.ran ++ [n] }, some (.externalCommandFailed n code2)) := by
                rw [resolve]; simp [h1, h2, hF, hcmp, runNode, hrb]
              rw [heq]
              intro m hm d hd
              simp only [List.mem_append, List.mem_singleton] at hm
              rcases hm with (hm | hm) | hm
              · exact hfoldD m (Or.inl hm) d hd
              · exact hdeps d (hm ▸ hd)
              · exact hfoldD m (Or.inr hm) d hd

theorem dependsOn_chain (g : Nat → Node) (m t : Nat) (h : DependsOn g m t) :
    ∀ (st : SchedState),
      (∀ m2, (m2 ∈ st.ran ∨ m2 ∈ st.resolved) → ∀ d ∈ (g m2).deps, d ∈ st.resolved) →
      (m ∈ st.ran ∨ m ∈ st.resolved) → t ∈ st.resolved := by
  induction h with
  | direct hd => intro st hD hm; exact hD _ hm _ hd
  | step hd _ ih => intro st hD hm; exact ih st hD (Or.inr (hD _ hm _ hd))

/-! ## Claim C5 (a command failure blocks every dependent) -/

/-- C5.  Starting a resolution from a clean state, if node `n`'s
external command fails (nonzero exit — in the source `run_cmd` kills the
whole process) and `n`'s run was invoked during the resolution, then the
resolution's result is exactly `externalCommandFailed n code` — the
surfaced failure identifies the originating node — and no node that
transitively depends on `n` is resolved or has its run invoked. -/
theorem c5_failure_blocks_dependents (g : Nat → Node) (n code fuel root : Nat) (fs0 : FS)
    (hb : (g n).runB = .cmdFails code)
    (hran : n ∈ (resolve g fuel [] root ⟨fs0, [], []⟩).1.ran) :
    (resolve g fuel [] root ⟨fs0, [], []⟩).2 = some (.externalCommandFailed n code)
      ∧ ∀ m, DependsOn g m n →
          m ∉ (resolve g fuel [] root ⟨fs0, [], []⟩).1.ran
            ∧ m ∉ (resolve g fuel [] root ⟨fs0, [], []⟩).1.resolved := by
  have hmain := resolve_cmdFail_aborts g n code hb fuel [] root ⟨fs0, [], []⟩
    (by simp) (by simp) hran
  refine ⟨hmain.1, fun m hdep => ⟨fun hm => ?_, fun hm => ?_⟩⟩
  · exact hmain.2 (dependsOn_chain g m n hdep _
      (resolve_deps_closed g fuel [] root ⟨fs0, [], []⟩
        (by intro m2 hm2 d hd; rcases hm2 with h | h <;> simp at h))
      (Or.inl hm))
  · exact hmain.2 (dependsOn_chain g m n hdep _
      (resolve_deps_closed g fuel [] root ⟨fs0, [], []⟩
        (by intro m2 hm2 d hd; rcases hm2 with h | h <;> simp at h))
      (Or.inr hm))

/-- C5 (witness): in `gFail2`, node 0's command fails with exit code 2;
resolving node 1 (which depends on node 0) surfaces
`externalCommandFailed 0 2` and node 1 is neither run nor resolved. -/
theorem c5_failure_blocks_dependents_witness :
    (gFail2 0).runB = .cmdFails 2
      ∧ 0 ∈ (resolve gFail2 3 [] 1 ⟨[], [], []⟩).1.ran
      ∧ (resolve gFail2 3 [] 1 ⟨[], [], []⟩).2 = some (.externalCommandFailed 0 2)
      ∧ 1 ∉ (resolve gFail2 3 [] 1 ⟨[], [], []⟩).1.ran
      ∧ 1 ∉ (resolve gFail2 3 [] 1 ⟨[], [], []⟩).1.resolved :=
  ⟨rfl, by decide,
    (c5_failure_blocks_dependents gFail2 0 2 3 1 [] rfl (by decide)).1,
    ((c5_failure_blocks_dependents gFail2 0 2 3 1 [] rfl (by decide)).2 1
      (.direct (by decide))).1,
    ((c5_failure_blocks_dependents gFail2 0 2 3 1 [] rfl (by decide)).2 1
      (.direct (by decide))).2⟩

/-! ## Claim C6 (artifact existence is presence plus non-empty plus
readable, and completeness checks nothing else) -/

/-- C6.  `targetExists` is true exactly when the path is present with a
non-empty, readable file; and the completeness check observes only
presence, size and readability — two filesystems that agree on those
three (with arbitrary differing contents) give the same completeness
verdict for every node. -/
theorem c6_exists_is_presence_only :
    (∀ (fs : FS) (p : String),
        targetExists fs p = true
          ↔ ∃ fi, FS.lookup fs p = some fi ∧ 0 < fi.size ∧ fi.readable = true)
  ∧ (∀ (g : Nat → Node) (fs fs2 : FS) (n : Nat),
        (∀ p, metaSame (FS.lookup fs p) (FS.lookup fs2 p) = true) →
        complete g fs n = complete g fs2 n) := by
  constructor
  · intro fs p
    unfold targetExists
    rcases hl : FS.lookup fs p with _ | fi
    · simp
    · simp [Bool.and_eq_true, decide_eq_true_iff]
  · intro g fs fs2 n h
    have hpt : ∀ p, targetExists fs p = targetExists fs2 p := by
      intro p
      have hp := h p
      unfold targetExists
      rcases hl : FS.lookup fs p with _ | fi <;> rcases hl2 : FS.lookup fs2 p with _ | fi2 <;>
        rw [hl, hl2] at hp <;> simp [metaSame] at hp
      simp [hp.1, hp.2]
    unfold complete
    have hall : ∀ (l : List String),
        l.all (fun p => targetExists fs p) = l.all (fun p => targetExists fs2 p) := by
      intro l
      induction l with
      | nil => rfl
      | cons a l ihl => simp [List.all_cons, hpt a, ihl]
    exact hall (g n).outs

/-- C6 (witness): two filesystems holding artifact `a` with equal size
and readability but different contents yield the same completeness
verdict. -/
theorem c6_exists_is_presence_only_witness :
    complete gOut [("a", fiA)] 0 = complete gOut [("a", ⟨1, true, "y"⟩)] 0 :=
  c6_exists_is_presence_only.2 gOut [("a", fiA)] [("a", ⟨1, true, "y"⟩)] 0
    (by intro p; by_cases h : "a" = p <;> simp [FS.lookup, h, metaSame, fiA])
